import Mathlib

/-!
Verification development for a Gmail mail-merge batch sender (`src/app.py`).

The Python source is shallowly embedded below:

* `extract_email` (app.py lines 45–51) — the recipient validator built on the
  regular expression `[\w\.-]+@[\w\.-]+\.\w+`.  The Python `re` engine's
  leftmost, greedy-with-backtracking search for this particular pattern is
  implemented directly over `List Char`.  Character classes are modelled over
  the ASCII fragment (`\w` = alphanumeric or underscore).
* `convert_bold` (lines 78–94) — the markup pass of the template renderer.
* Python `str.format(**row)` — `pyFormat`, the per-row template instantiation.
* `compute_run_signature` (lines 246–258) — SHA-1 over the concatenated key,
  with SHA-1 implemented from FIPS 180 (what `hashlib.sha1` computes),
  arithmetic on `Nat` reduced mod 2^32.
* the send loop (lines 287–471) — rows as association lists of cell strings
  (every cell is recorded as the string Python's `str(...)` would produce for
  it; a pandas `NaN` cell therefore appears as `"nan"`, and a column created
  by `df[col] = None` appears as `"None"`), the Gmail service as an
  environment of per-row oracles, the Streamlit session state as an explicit
  record, the user's stop button and wall-clock as further environment data.

Definitions come first, then the theorems about the claims of the
specification, each with supporting lemmas.
-/

namespace MailLink

/-! ## Recipient validator (`extract_email`, app.py lines 45–51)

`EMAIL_REGEX = re.compile(r"[\w\.-]+@[\w\.-]+\.\w+")`

`matchAt` decides whether the pattern matches starting at the head of the
list, returning the matched characters; it mirrors the engine's behaviour on
this pattern: the `[\w.-]+` pieces are greedy runs, the only backtracking
point that matters is the position of the `\.` inside the domain, searched
from the longest candidate downwards.  `searchEmail` tries successive start
positions from the left, as `re.search` does. -/

/-- `\w` over ASCII: letters, digits, underscore. -/
def isWordChar (c : Char) : Bool := c.isAlphanum || c == '_'

/-- The class `[\w.-]` used for the local part and the domain. -/
def isAddrChar (c : Char) : Bool := isWordChar c || c == '.' || c == '-'

/-- Length of the maximal run of characters satisfying `p` at the head. -/
def runLen (p : Char → Bool) (cs : List Char) : Nat := (cs.takeWhile p).length

/-- Backtracking search: try candidate positions `n, n-1, …, 1`. -/
def downSearch (cond : Nat → Bool) : Nat → Option Nat
  | 0 => none
  | j + 1 => if cond (j + 1) then some (j + 1) else downSearch cond j

/-- Condition for splitting the domain at offset `j`: a literal `.` sits at
`j` and at least one `\w` character follows it. -/
def domCond (rest : List Char) (j : Nat) : Bool :=
  rest[j]? == some '.' && decide (0 < runLen isWordChar (rest.drop (j + 1)))

/-- Match `[\w.-]+\.\w+` at the head of `rest` (the part after `@`),
returning the matched characters. -/
def matchDomain (rest : List Char) : Option (List Char) :=
  match downSearch (domCond rest) (runLen isAddrChar rest) with
  | none => none
  | some j => some (rest.take j ++ '.' :: (rest.drop (j + 1)).takeWhile isWordChar)

/-- Match the whole pattern at the head of `s`: the maximal `[\w.-]+` run
must be nonempty and be followed immediately by `@` (shortening a greedy run
can never expose an `@`, because every shortened position still holds a
`[\w.-]` character), then the domain part must match. -/
def matchAt (s : List Char) : Option (List Char) :=
  let l := runLen isAddrChar s
  if l = 0 then none
  else if s[l]? = some '@' then
    match matchDomain (s.drop (l + 1)) with
    | none => none
    | some d => some (s.take l ++ '@' :: d)
  else none

/-- `re.search`: try the pattern at each start position from the left. -/
def searchEmail : List Char → Option (List Char)
  | [] => matchAt []
  | c :: t =>
    match matchAt (c :: t) with
    | some m => some m
    | none => searchEmail t

/-- `extract_email` (app.py lines 47–51).  `none` models Python `None`; a
falsy input (`None` or the empty string) is rejected up front, otherwise the
first match of `EMAIL_REGEX` in the string is returned. -/
def extract_email : Option String → Option String
  | none => none
  | some v => if v = "" then none else (searchEmail v.data).map List.asString

/-- Specification-side shape of a full match of the pattern
`[\w.-]+@[\w.-]+\.\w+`: local part, `@`, domain, `.`, tld. -/
def EmailShape (m : List Char) : Prop :=
  ∃ a b c : List Char,
    m = a ++ '@' :: (b ++ '.' :: c) ∧ a ≠ [] ∧ b ≠ [] ∧ c ≠ [] ∧
      (∀ x ∈ a, isAddrChar x) ∧ (∀ x ∈ b, isAddrChar x) ∧ (∀ x ∈ c, isWordChar x)

/-! ## Markup pass of the renderer (`convert_bold`, app.py lines 78–94)

`re.sub` scanning is modelled directly: at each position try the pattern,
on success emit the replacement and continue after the match, on failure
advance one character.  The lazy `(.*?)` groups cannot cross a newline
(`.` does not match `\n`), which is what the `contains` newline checks
encode.  No claim is about this pass; it is embedded so that the payload
carries the body text the source would carry. -/

/-- Index at which the first `**` starts, if any. -/
def starsPos : List Char → Option Nat
  | '*' :: '*' :: _ => some 0
  | _ :: rest => (starsPos rest).map (· + 1)
  | [] => none

/-- Index of the first occurrence of `t`, if any. -/
def charPos (t : Char) : List Char → Option Nat
  | [] => none
  | c :: rest => if c = t then some 0 else (charPos t rest).map (· + 1)

/-- `re.sub(r"\*\*(.*?)\*\*", r"<b>\1</b>", text)`. -/
def boldSub : List Char → List Char
  | [] => []
  | '*' :: '*' :: rest =>
    match starsPos rest with
    | some p =>
      let inner := rest.take p
      if inner.contains '\n' then '*' :: boldSub ('*' :: rest)
      else "<b>".data ++ inner ++ "</b>".data ++ boldSub (rest.drop (p + 2))
    | none => '*' :: boldSub ('*' :: rest)
  | c :: rest => c :: boldSub rest
termination_by cs => cs.length
decreasing_by all_goals (simp [List.length_drop] <;> omega)

/-- Characters allowed in the url group `[^\s)]`. -/
def isUrlChar (c : Char) : Bool := !(c.isWhitespace || c == ')')

/-- Greedy `[^\s)]+` followed by a literal `)`: returns the url characters
and the number of characters consumed (url plus closing paren). -/
def urlTail (cs : List Char) : Option (List Char × Nat) :=
  let n := runLen isUrlChar cs
  if n = 0 then none
  else if cs[n]? = some ')' then some (cs.take n, n + 1) else none

/-- Literal `https?://` at the head; returns the matched scheme characters
and the remainder. -/
def schemeSplit : List Char → Option (List Char × List Char)
  | 'h' :: 't' :: 't' :: 'p' :: rest =>
    match rest with
    | 's' :: ':' :: '/' :: '/' :: r => some ("https://".data, r)
    | ':' :: '/' :: '/' :: r => some ("http://".data, r)
    | _ => none
  | _ => none

/-- Match `(.*?)\]\((https?://[^\s)]+)\)` at the head of `cs` (the part
after an opening `[`): the lazy label extends to successive `]` positions
until the rest of the pattern matches.  Returns (label, url, consumed). -/
def linkParse : List Char → Option (List Char × List Char × Nat)
  | [] => none
  | c0 :: cs0 =>
    let cs := c0 :: cs0
    match charPos ']' cs with
    | none => none
    | some p =>
      let lab := cs.take p
      if lab.contains '\n' then none
      else
        let tryUrl : Option (List Char × Nat) :=
          match cs.drop (p + 1) with
          | '(' :: urlStart =>
            match schemeSplit urlStart with
            | some (sch, rest2) =>
              match urlTail rest2 with
              | some (url, u) => some (sch ++ url, p + 2 + sch.length + u)
              | none => none
            | none => none
          | _ => none
        match tryUrl with
        | some (url, n) => some (lab, url, n)
        | none =>
          match linkParse (cs.drop (p + 1)) with
          | some (lab₂, url, n₂) => some (lab ++ ']' :: lab₂, url, p + 1 + n₂)
          | none => none
termination_by cs => cs.length
decreasing_by simp [List.length_drop]; omega

/-- `re.sub(r"\[(.*?)\]\((https?://[^\s)]+)\)", hyperlink, text)`. -/
def linkSub : List Char → List Char
  | [] => []
  | '[' :: rest =>
    match linkParse rest with
    | some (lab, url, n) =>
      "<a href=\"".data ++ url ++
        "\" style=\"color:#1a73e8; text-decoration:underline;\" target=\"_blank\">".data ++
        lab ++ "</a>".data ++ linkSub (rest.drop n)
    | none => '[' :: linkSub rest
  | c :: rest => c :: linkSub rest
termination_by cs => cs.length
decreasing_by all_goals (simp [List.length_drop] <;> omega)

/-- `text.replace("\n", "<br>")`. -/
def replaceNewline : List Char → List Char
  | [] => []
  | '\n' :: rest => "<br>".data ++ replaceNewline rest
  | c :: rest => c :: replaceNewline rest

/-- `text.replace("  ", "&nbsp;&nbsp;")` (left-to-right, non-overlapping). -/
def replaceDouble : List Char → List Char
  | [] => []
  | ' ' :: ' ' :: rest => "&nbsp;&nbsp;".data ++ replaceDouble rest
  | c :: rest => c :: replaceDouble rest

/-- Head of the fixed f-string wrapper of `convert_bold`. -/
def htmlPre : String :=
  "\n    <html>\n        <body style=\"font-family: Verdana, sans-serif; font-size: 14px; line-height: 1.6;\">\n            "

/-- Tail of the fixed f-string wrapper of `convert_bold`. -/
def htmlPost : String := "\n        </body>\n    </html>\n    "

/-- `convert_bold` (app.py lines 78–94). -/
def convert_bold (text : String) : String :=
  if text = "" then ""
  else
    let t1 := boldSub text.data
    let t2 := linkSub t1
    let t3 := replaceDouble (replaceNewline t2)
    htmlPre ++ List.asString t3 ++ htmlPost

/-! ## Rows and templates

A row is an association list from column name to the cell rendered the way
Python `str(...)` renders it: a pandas NaN cell appears as `"nan"`, a column
created by `df[col] = None` appears as `"None"`. -/

/-- A recipient row: column name to cell string. -/
abbrev Cells := List (String × String)

/-- Cell lookup (`row[k]` / `row.get(k)` on the column axis). -/
def getCol (r : Cells) (k : String) : Option String :=
  (r.find? (fun kv => kv.1 == k)).map (fun kv => kv.2)

/-- `k in row` on a pandas row checks column membership. -/
def hasCol (r : Cells) (k : String) : Bool := (getCol r k).isSome

/-- `df.loc[idx, k] = v` restricted to one row: overwrite the first binding
of `k`, or append the column if absent. -/
def setCol : Cells → String → String → Cells
  | [], k, v => [(k, v)]
  | (k₀, v₀) :: rest, k, v =>
    if k₀ == k then (k₀, v) :: rest else (k₀, v₀) :: setCol rest k v

/-- Lines 310–313: `if "ThreadId" not in df.columns: df["ThreadId"] = None`
(and the same for `RfcMessageId`), per row; `str(None)` is `"None"`. -/
def initRow (r : Cells) : Cells :=
  let r1 := if hasCol r "ThreadId" then r else r ++ [("ThreadId", "None")]
  if hasCol r1 "RfcMessageId" then r1 else r1 ++ [("RfcMessageId", "None")]

/-- The whitespace set of Python `str.strip` (ASCII fragment). -/
def isPySpace (c : Char) : Bool :=
  c == ' ' || c == '\t' || c == '\n' || c == '\r' || c == '\x0b' || c == '\x0c'

/-- Python `str.strip`: drop whitespace from both ends. -/
def pyStrip (s : String) : String :=
  List.asString (((s.data.dropWhile isPySpace).reverse.dropWhile isPySpace).reverse)

/-- ASCII lower-casing of one character (Python `str.lower` on ASCII). -/
def lowerChar (c : Char) : Char :=
  if 'A' ≤ c ∧ c ≤ 'Z' then Char.ofNat (c.toNat + 32) else c

/-- Python `str.lower` (ASCII fragment). -/
def pyLower (s : String) : String := List.asString (s.data.map lowerChar)

/-- The apostrophe character, used by Python exception renderings. -/
def apos : Char := Char.ofNat 39

/-- Wrap a string in single quotes, as `str(KeyError(k))` renders it. -/
def quoted (s : String) : String := String.singleton apos ++ s ++ String.singleton apos

/-- Python `template.format(**row)` for plain `\x7bfield\x7d` placeholders:
`\x7b\x7b`/`\x7d\x7d` are brace escapes, a placeholder with no matching
column raises `KeyError` (rendered as the quoted key), an unmatched brace
raises `ValueError`.  The result is `Except` with the `str(...)` rendering
of the exception as the error. -/
def pyFormatGo (row : Cells) : Nat → List Char → Except String (List Char)
  | _, [] => .ok []
  | 0, _ :: _ => .error "format recursion fuel exhausted"
  | fuel + 1, '{' :: '{' :: rest => (pyFormatGo row fuel rest).map (fun t => '{' :: t)
  | fuel + 1, '}' :: '}' :: rest => (pyFormatGo row fuel rest).map (fun t => '}' :: t)
  | fuel + 1, '{' :: rest =>
    match charPos '}' rest with
    | none => .error ("expected " ++ quoted "\x7d" ++ " before end of string")
    | some p =>
      let name := (rest.take p).asString
      match getCol row name with
      | none => .error (quoted name)
      | some v => (pyFormatGo row fuel (rest.drop (p + 1))).map (fun t => v.data ++ t)
  | _ + 1, '}' :: _ => .error ("Single " ++ quoted "\x7d" ++ " encountered in format string")
  | fuel + 1, c :: rest => (pyFormatGo row fuel rest).map (fun t => c :: t)

/-- Entry point of the formatter: the fuel is the template length; every
recursive step consumes at least one character, so the fuel never runs out
on the entry call. -/
def pyFormat (tmpl : List Char) (row : Cells) : Except String (List Char) :=
  pyFormatGo row tmpl.length tmpl

/-! ## Send modes, payloads, provider -/

/-- The three radio choices (line 238–241). -/
inductive Mode where
  | newEmail
  | followUp
  | draft
deriving DecidableEq, Repr

/-- The exact radio label strings used in string comparisons and in the run
signature. -/
def modeLabel : Mode → String
  | .newEmail => "🆕 New Email"
  | .followUp => "↩️ Follow-up (Reply)"
  | .draft => "💾 Save as Draft"

/-- The MIME message (`MIMEText(body_html, "html")` plus the headers set on
it).  Base64 serialisation (`raw`) is an injective encoding and is kept
structured. -/
structure Mime where
  toHeader : String
  subject : String
  bodyHtml : String
  inReplyTo : Option String := none
  references : Option String := none
deriving DecidableEq, Repr

/-- The Gmail API body dict: `{"raw": ..., "threadId": ...?}`. -/
structure MsgBody where
  raw : Mime
  threadId : Option String := none
deriving DecidableEq, Repr

/-- Payload construction, app.py lines 334–353: in Follow-up mode with both
identifier columns present, thread the message iff the stripped `ThreadId`
is truthy and not the string `"nan"` (case-insensitively) and the stripped
`RfcMessageId` is truthy; otherwise (and in the other modes) a plain
payload. -/
def buildMsgBody (mode : Mode) (row : Cells) (toAddr subject bodyHtml : String) : MsgBody :=
  let message : Mime := { toHeader := toAddr, subject := subject, bodyHtml := bodyHtml }
  if mode = Mode.followUp ∧ hasCol row "ThreadId" ∧ hasCol row "RfcMessageId" then
    let thread_id := pyStrip ((getCol row "ThreadId").getD "")
    let rfc_id := pyStrip ((getCol row "RfcMessageId").getD "")
    if thread_id ≠ "" ∧ pyLower thread_id ≠ "nan" ∧ rfc_id ≠ "" then
      { raw := { message with inReplyTo := some rfc_id, references := some rfc_id },
        threadId := some thread_id }
    else { raw := message }
  else { raw := message }

/-- What the provider returns for a send (`{id, threadId}`) or for the
`message` object of a created draft; either key may be absent. -/
structure ProviderMsg where
  id : Option String := none
  threadId : Option String := none
deriving DecidableEq, Repr

/-! ## The send loop -/

/-- Observable events of one run, in order of occurrence. -/
inductive Ev where
  | providerCall (idx : Nat) (isDraft : Bool) (payload : MsgBody)
  | warnLabel (idx : Nat)
  | writeBack (idx : Nat) (tid rid : String)
  | progress (sent total : Nat) (frac eta : ℚ)
deriving DecidableEq, Repr

/-- The environment of one run: what the outside world (provider, user,
clock) does.  `stopAt = some t` means the stop flag reads true from the
`t`-th top-of-loop check onwards (the flag is only ever set during a run,
never cleared until the final cleanup).  `fatalAt = some i` with `i < N`
means an error escapes the per-row `try` at the boundary of iteration `i`;
`i = N` means it is raised in the post-loop summary section.  `msgIdHeader`
is the outcome of the best-effort 5-attempt Message-ID fetch,
`labelApplied` the outcome of the 3-attempt label application. -/
structure Env where
  stopAt : Option Nat := none
  sendRes : Nat → Except String ProviderMsg
  draftRes : Nat → Except String ProviderMsg
  msgIdHeader : Nat → Option String
  labelApplied : Nat → Bool
  elapsed : Nat → ℚ
  fatalAt : Option Nat := none

/-- Value of `st.session_state["stop_flag"]` as read at check `i`. -/
def obsStop (env : Env) (i : Nat) : Bool :=
  match env.stopAt with
  | none => false
  | some t => decide (t ≤ i)

/-- The configuration of one run (template texts, mode, label, delay). -/
structure Cfg where
  subjectT : String
  bodyT : String
  mode : Mode
  labelName : String
  labelId : Option String := none
  delay : Nat := 20

/-- Mutable state of one run: the table plus the outcome ledger
(`sent_count`, `skipped`, `errors`) and the event trace. -/
structure St where
  rows : List Cells
  sent : Nat := 0
  skipped : List String := []
  errors : List (String × String) := []
  trace : List Ev := []
deriving DecidableEq, Repr

/-- The body of the `for idx, row in df.iterrows()` loop (app.py lines
326–423), minus the top-of-iteration stop check: validate the address (skip
on failure), render subject then body (ledger failure on `KeyError`), build
the payload, dispatch to draft-creation or send (ledger failure if the call
raises), then best-effort enrichment, label warning, identifier write-back,
sent-count increment and progress emission. -/
def processRow (cfg : Cfg) (env : Env) (i : Nat) (st : St) : St :=
  let row := st.rows.getD i []
  let emailRaw := (getCol row "Email").getD ""
  match extract_email (some (pyStrip emailRaw)) with
  | none => { st with skipped := st.skipped ++ [emailRaw] }
  | some toAddr =>
    match pyFormat cfg.subjectT.data row with
    | .error e => { st with errors := st.errors ++ [(toAddr, e)] }
    | .ok subjChars =>
      match pyFormat cfg.bodyT.data row with
      | .error e => { st with errors := st.errors ++ [(toAddr, e)] }
      | .ok bodyChars =>
        let bodyHtml := convert_bold bodyChars.asString
        let msgBody := buildMsgBody cfg.mode row toAddr subjChars.asString bodyHtml
        let isDraft := decide (cfg.mode = Mode.draft)
        let callRes := if cfg.mode = Mode.draft then env.draftRes i else env.sendRes i
        let st1 := { st with trace := st.trace ++ [Ev.providerCall i isDraft msgBody] }
        match callRes with
        | .error e => { st1 with errors := st1.errors ++ [(toAddr, e)] }
        | .ok pm =>
          let mih := env.msgIdHeader i
          let st2 :=
            if cfg.mode = Mode.newEmail ∧ cfg.labelId.getD "" ≠ "" ∧ pm.id.getD "" ≠ "" ∧
                env.labelApplied i = false
            then { st1 with trace := st1.trace ++ [Ev.warnLabel i] } else st1
          let tid := pm.threadId.getD ""
          let rid := mih.getD ""
          let row' := setCol (setCol row "ThreadId" tid) "RfcMessageId" rid
          let sent' : Nat := st2.sent + 1
          let total : Nat := st2.rows.length
          let frac : ℚ := if 0 < total then (sent' : ℚ) / (total : ℚ) else 1
          let eta : ℚ :=
            ((total : ℚ) - (sent' : ℚ)) * (if 0 < sent' then env.elapsed i / (sent' : ℚ) else 0)
          { st2 with
            rows := st2.rows.set i row'
            sent := sent'
            trace := st2.trace ++ [Ev.writeBack i tid rid, Ev.progress sent' total frac eta] }

/-- How the loop ended. -/
inductive EndK where
  | exhausted
  | stopped
  | fatal
deriving DecidableEq, Repr

/-- The loop itself over the remaining row indices: stop check first, then
the possibility of an error escaping the per-row scope, then the row body. -/
def loopFrom (cfg : Cfg) (env : Env) : List Nat → St → St × EndK
  | [], st => (st, .exhausted)
  | i :: rest, st =>
    if obsStop env i then (st, .stopped)
    else if env.fatalAt = some i then (st, .fatal)
    else loopFrom cfg env rest (processRow cfg env i st)

/-! ## Run signature (`compute_run_signature`, app.py lines 246–258)

`hashlib.sha1` is implemented from FIPS 180; bytes and 32-bit words are
`Nat` with explicit reduction mod 2^32. -/

/-- Reduce mod 2^32. -/
def w32 (n : Nat) : Nat := n % 4294967296

/-- Rotate a 32-bit word left by `b`. -/
def rotl (b n : Nat) : Nat := w32 (n * 2 ^ b) ||| n / 2 ^ (32 - b)

/-- Big-endian 4-byte groups to 32-bit words. -/
def toWordsBE : List Nat → List Nat
  | b0 :: b1 :: b2 :: b3 :: rest => (((b0 * 256 + b1) * 256 + b2) * 256 + b3) :: toWordsBE rest
  | _ => []

/-- Big-endian 8 bytes of the 64-bit message bit length. -/
def bytesOfNat64 (n : Nat) : List Nat :=
  [n / 2 ^ 56 % 256, n / 2 ^ 48 % 256, n / 2 ^ 40 % 256, n / 2 ^ 32 % 256,
   n / 2 ^ 24 % 256, n / 2 ^ 16 % 256, n / 2 ^ 8 % 256, n % 256]

/-- SHA-1 padding: `0x80`, zeros to 56 mod 64, 8-byte bit length. -/
def sha1Pad (msg : List Nat) : List Nat :=
  msg ++ 128 :: List.replicate ((120 - (msg.length + 1) % 64) % 64) 0 ++
    bytesOfNat64 (msg.length * 8)

/-- Split into 64-byte chunks. -/
def toChunks : List Nat → List (List Nat)
  | [] => []
  | b :: rest => (b :: rest).take 64 :: toChunks ((b :: rest).drop 64)
termination_by l => l.length
decreasing_by simp [List.length_drop]; omega

/-- One SHA-1 compression round over a 64-byte chunk. -/
def sha1Chunk (h : Nat × Nat × Nat × Nat × Nat) (chunk : List Nat) :
    Nat × Nat × Nat × Nat × Nat :=
  let w := (List.range 64).foldl
    (fun (a : Array Nat) _ =>
      a.push (rotl 1 (a.getD (a.size - 3) 0 ^^^ a.getD (a.size - 8) 0 ^^^
        a.getD (a.size - 14) 0 ^^^ a.getD (a.size - 16) 0)))
    (toWordsBE chunk).toArray
  let (h0, h1, h2, h3, h4) := h
  let (a, b, c, d, e) := (List.range 80).foldl
    (fun (st : Nat × Nat × Nat × Nat × Nat) t =>
      let (a, b, c, d, e) := st
      let fk : Nat × Nat :=
        if t < 20 then ((b &&& c) ||| ((b ^^^ 4294967295) &&& d), 1518500249)
        else if t < 40 then (b ^^^ c ^^^ d, 1859775393)
        else if t < 60 then ((b &&& c) ||| (b &&& d) ||| (c &&& d), 2400959708)
        else (b ^^^ c ^^^ d, 3395469782)
      let temp := w32 (rotl 5 a + fk.1 + e + fk.2 + w.getD t 0)
      (temp, a, rotl 30 b, c, d))
    (h0, h1, h2, h3, h4)
  (w32 (h0 + a), w32 (h1 + b), w32 (h2 + c), w32 (h3 + d), w32 (h4 + e))

/-- Big-endian bytes of a 32-bit word. -/
def wordBytes (n : Nat) : List Nat :=
  [n / 2 ^ 24 % 256, n / 2 ^ 16 % 256, n / 2 ^ 8 % 256, n % 256]

/-- SHA-1 digest: 20 bytes. -/
def sha1 (msg : List Nat) : List Nat :=
  let hs := (toChunks (sha1Pad msg)).foldl sha1Chunk
    (1732584193, 4023233417, 2562383102, 271733878, 3285377520)
  wordBytes hs.1 ++ wordBytes hs.2.1 ++ wordBytes hs.2.2.1 ++
    wordBytes hs.2.2.2.1 ++ wordBytes hs.2.2.2.2

/-- Lower-case hex digit. -/
def hexDigit (n : Nat) : Char :=
  if n < 10 then Char.ofNat (48 + n) else Char.ofNat (87 + n)

/-- Two hex digits of one byte. -/
def byteHex (b : Nat) : List Char := [hexDigit (b / 16), hexDigit (b % 16)]

/-- `hexdigest()` as characters. -/
def hexChars : List Nat → List Char
  | [] => []
  | b :: rest => byteHex b ++ hexChars rest

/-- UTF-8 bytes of one character. -/
def utf8Char (c : Char) : List Nat :=
  let n := c.toNat
  if n < 128 then [n]
  else if n < 2048 then [192 + n / 64, 128 + n % 64]
  else if n < 65536 then [224 + n / 4096, 128 + n / 64 % 64, 128 + n % 64]
  else [240 + n / 262144, 128 + n / 4096 % 64, 128 + n / 64 % 64, 128 + n % 64]

/-- UTF-8 bytes of a character list. -/
def utf8Chars : List Char → List Nat
  | [] => []
  | c :: rest => utf8Char c ++ utf8Chars rest

/-- `s.encode("utf-8")`. -/
def utf8 (s : String) : List Nat := utf8Chars s.data

/-- `df.head(50).to_csv(index=False).encode("utf-8")` with the degenerate
fallback: serialisation is an external collaborator (pandas) passed in as a
function; on any failure the empty byte string is substituted
(app.py lines 247–250). -/
def sampleBytes (serialize : List Cells → Except String (List Nat)) (df : List Cells) :
    List Nat :=
  match serialize (df.take 50) with
  | .ok bs => bs
  | .error _ => []

/-- The concatenated key of `compute_run_signature` (lines 251–257): sample
bytes then the UTF-8 bytes of subject, body, mode and label, with no
separators. -/
def runKey (serialize : List Cells → Except String (List Nat)) (df : List Cells)
    (subject body mode label : String) : List Nat :=
  sampleBytes serialize df ++ utf8 subject ++ utf8 body ++ utf8 mode ++ utf8 label

/-- `compute_run_signature` (lines 246–258): `sha1(key).hexdigest()[:12]`. -/
def compute_run_signature (serialize : List Cells → Except String (List Nat))
    (df : List Cells) (subject body mode label : String) : String :=
  List.asString ((hexChars (sha1 (runKey serialize df subject body mode label))).take 12)

/-! ## The button handler and session state -/

/-- The relevant Streamlit session state: `sending`, `stop_flag`,
`completed_run`. -/
structure Sess where
  sending : Bool := false
  stopFlag : Bool := false
  completedRun : Option String := none
deriving DecidableEq, Repr

/-- Outcome of one press of the send button. -/
inductive Outcome where
  | refusedDup
  | refusedBusy
  | completedOk
  | stoppedRun
  | fatalRun
deriving DecidableEq, Repr

/-- The `send_pressed` handler (app.py lines 287–471): refuse on identical
completed signature, refuse while a run is in progress; otherwise
initialise the identifier columns, run the loop, record the signature as
completed only when the final stop-flag read is false and no error escaped,
and in the `finally` block always clear `sending` and `stop_flag`. -/
def runPressed (cfg : Cfg) (env : Env)
    (serialize : List Cells → Except String (List Nat)) (df : List Cells)
    (sess : Sess) : Outcome × Sess × St :=
  let sig := compute_run_signature serialize df cfg.subjectT cfg.bodyT
    (modeLabel cfg.mode) cfg.labelName
  if sess.completedRun = some sig then
    (.refusedDup, sess, { rows := df })
  else if sess.sending then
    (.refusedBusy, sess, { rows := df })
  else
    let rows0 := df.map initRow
    let (st, ek) := loopFrom cfg env (List.range rows0.length) { rows := rows0 }
    if ek = EndK.fatal ∨ env.fatalAt = some df.length then
      (.fatalRun, { sending := false, stopFlag := false, completedRun := sess.completedRun }, st)
    else if obsStop env df.length then
      (.stoppedRun, { sending := false, stopFlag := false, completedRun := sess.completedRun }, st)
    else
      (.completedOk, { sending := false, stopFlag := false, completedRun := some sig }, st)

/-! ## Derived observations used by the claim statements -/

/-- Row indices of provider calls in a trace, in order. -/
def providerCallIdxs (tr : List Ev) : List Nat :=
  tr.filterMap fun ev =>
    match ev with
    | .providerCall i _ _ => some i
    | _ => none

/-- Row indices of identifier write-backs in a trace, in order. -/
def writeBackIdxs (tr : List Ev) : List Nat :=
  tr.filterMap fun ev =>
    match ev with
    | .writeBack i _ _ => some i
    | _ => none

/-- The progress events of a trace, in order. -/
def progressEvs (tr : List Ev) : List Ev :=
  tr.filter fun ev =>
    match ev with
    | .progress _ _ _ _ => true
    | _ => false

/-- The address the validator extracts for a row, if any. -/
def rowAddr (row : Cells) : Option String :=
  extract_email (some (pyStrip ((getCol row "Email").getD "")))

/-- Whether a rendering attempt succeeded. -/
def renderOk : Except String (List Char) → Bool
  | .ok _ => true
  | .error _ => false

/-- A row reaches the provider call iff its address extracts and both
templates render. -/
def rowDispatched (cfg : Cfg) (row : Cells) : Bool :=
  (rowAddr row).isSome && renderOk (pyFormat cfg.subjectT.data row) &&
    renderOk (pyFormat cfg.bodyT.data row)

/-- The provider call the loop makes for row `i`. -/
def callResult (cfg : Cfg) (env : Env) (i : Nat) : Except String ProviderMsg :=
  if cfg.mode = Mode.draft then env.draftRes i else env.sendRes i

/-- Whether the provider call for a row succeeds. -/
def callOk (cfg : Cfg) (env : Env) (i : Nat) : Bool :=
  match callResult cfg env i with
  | .ok _ => true
  | .error _ => false

/-- A row is written back and counted as sent iff it is dispatched and the
call returns. -/
def rowSent (cfg : Cfg) (env : Env) (i : Nat) (row : Cells) : Bool :=
  rowDispatched cfg row && callOk cfg env i

/-- Modelled from the claim wording of C1: a cell is "non-empty and
non-placeholder" when, after stripping, it is neither empty nor the pandas
NaN rendering `"nan"` (case-insensitively). -/
def specNonPlaceholder (s : String) : Prop :=
  pyStrip s ≠ "" ∧ pyLower (pyStrip s) ≠ "nan"

/-- The fold the loop body performs when neither the stop flag nor a fatal
error interrupts it. -/
def runFold (cfg : Cfg) (env : Env) (st : St) (idxs : List Nat) : St :=
  idxs.foldl (fun s i => processRow cfg env i s) st

/-- The skip-list entry a row contributes, if any (the raw `Email` cell). -/
def skipEntry (row : Cells) : Option String :=
  match rowAddr row with
  | none => some ((getCol row "Email").getD "")
  | some _ => none

/-- The failure-list entry a row contributes, if any: render failures and
provider-call failures, paired with the extracted address. -/
def errEntry (cfg : Cfg) (env : Env) (i : Nat) (row : Cells) : Option (String × String) :=
  match rowAddr row with
  | none => none
  | some addr =>
    match pyFormat cfg.subjectT.data row with
    | .error e => some (addr, e)
    | .ok _ =>
      match pyFormat cfg.bodyT.data row with
      | .error e => some (addr, e)
      | .ok _ =>
        match callResult cfg env i with
        | .error e => some (addr, e)
        | .ok _ => none

/-- Whether the non-fatal label warning fires for row `i`. -/
def labelWarn (cfg : Cfg) (env : Env) (i : Nat) (pm : ProviderMsg) : Bool :=
  decide (cfg.mode = Mode.newEmail ∧ cfg.labelId.getD "" ≠ "" ∧ pm.id.getD "" ≠ "" ∧
    env.labelApplied i = false)

/-- `sent_count / total_rows if total_rows > 0 else 1.0`. -/
def progressFrac (sent total : Nat) : ℚ :=
  if 0 < total then (sent : ℚ) / (total : ℚ) else 1

/-- `(total_rows - sent_count) * (elapsed / sent_count if sent_count > 0 else 0)`. -/
def progressEta (env : Env) (i sent total : Nat) : ℚ :=
  ((total : ℚ) - (sent : ℚ)) * (if 0 < sent then env.elapsed i / (sent : ℚ) else 0)

/-- The row contents after the loop has handled row `i`: identifiers
overwritten on success, untouched otherwise. -/
def rowFinalCells (cfg : Cfg) (env : Env) (i : Nat) (row : Cells) : Cells :=
  match callResult cfg env i with
  | .ok pm =>
    if rowDispatched cfg row then
      setCol (setCol row "ThreadId" (pm.threadId.getD ""))
        "RfcMessageId" ((env.msgIdHeader i).getD "")
    else row
  | .error _ => row

/-- The payload the loop builds for a dispatched row. -/
def rowPayload (cfg : Cfg) (row : Cells) : MsgBody :=
  buildMsgBody cfg.mode row ((rowAddr row).getD "")
    (((pyFormat cfg.subjectT.data row).toOption.getD []).asString)
    (convert_bold (((pyFormat cfg.bodyT.data row).toOption.getD []).asString))

/-- The events one iteration appends to the trace, given the sent count and
row total at that moment. -/
def rowEvents (cfg : Cfg) (env : Env) (i : Nat) (row : Cells) (sentBefore total : Nat) :
    List Ev :=
  match rowAddr row with
  | none => []
  | some _ =>
    if renderOk (pyFormat cfg.subjectT.data row) && renderOk (pyFormat cfg.bodyT.data row) then
      Ev.providerCall i (decide (cfg.mode = Mode.draft)) (rowPayload cfg row) ::
        match callResult cfg env i with
        | .error _ => []
        | .ok pm =>
          (if labelWarn cfg env i pm then [Ev.warnLabel i] else []) ++
            [Ev.writeBack i (pm.threadId.getD "") ((env.msgIdHeader i).getD ""),
             Ev.progress (sentBefore + 1) total (progressFrac (sentBefore + 1) total)
               (progressEta env i (sentBefore + 1) total)]
    else []

/-- The whole trace of a run over `idxs`, threading the sent count. -/
def specTrace (cfg : Cfg) (env : Env) (rowOf : Nat → Cells) (total : Nat) :
    List Nat → Nat → List Ev
  | [], _ => []
  | i :: rest, sent0 =>
    rowEvents cfg env i (rowOf i) sent0 total ++
      specTrace cfg env rowOf total rest
        (sent0 + if rowSent cfg env i (rowOf i) then 1 else 0)

/-! ## Concrete fixtures used by witnesses and counterexamples -/

/-- A serializer that always succeeds with no bytes. -/
def serOk : List Cells → Except String (List Nat) := fun _ => Except.ok []

/-- A well-behaved provider environment with the given stop/fatal settings. -/
def mkEnv (stopAt fatalAt : Option Nat) : Env :=
  { stopAt := stopAt
    sendRes := fun _ => Except.ok { id := some "sid", threadId := some "tid" }
    draftRes := fun _ => Except.ok { id := some "did", threadId := some "dtid" }
    msgIdHeader := fun _ => some "<mid@mail.example.com>"
    labelApplied := fun _ => true
    elapsed := fun _ => 5
    fatalAt := fatalAt }

/-- An environment whose provider send raises on every row. -/
def mkEnvSendFails : Env :=
  { mkEnv none none with sendRes := fun _ => Except.error "HttpError 500" }

/-- New-Email-mode configuration. -/
def cfgNew : Cfg :=
  { subjectT := "Hi {Name}", bodyT := "Body", mode := Mode.newEmail,
    labelName := "L", labelId := some "lid", delay := 20 }

/-- Follow-up-mode configuration. -/
def cfgFollow : Cfg :=
  { subjectT := "S", bodyT := "B", mode := Mode.followUp,
    labelName := "L", labelId := none, delay := 20 }

/-- Two rows with valid addresses. -/
def dfTwo : List Cells :=
  [[("Email", "a@x.com"), ("Name", "A")], [("Email", "b@y.com"), ("Name", "B")]]

/-- First row has no extractable address, second is valid. -/
def dfSkipFirst : List Cells :=
  [[("Email", "bad"), ("Name", "A")], [("Email", "b@y.com"), ("Name", "B")]]

/-- One Follow-up row carrying prior identifiers. -/
def dfThreaded : List Cells :=
  [[("Email", "a@x.com"), ("ThreadId", "t1"), ("RfcMessageId", "m0")]]

/-! ### Lemmas about the matcher -/

theorem wordChar_isAddrChar {c : Char} (h : isWordChar c = true) : isAddrChar c = true := by
  simp [isAddrChar, h]

theorem takeWhile_all_append {p : Char → Bool} {a : List Char} (y : Char) (r : List Char)
    (ha : ∀ x ∈ a, p x = true) (hy : p y = false) :
    (a ++ y :: r).takeWhile p = a := by
  induction a with
  | nil => simp [List.takeWhile_cons, hy]
  | cons x xs ih =>
    have hx : p x = true := ha x (by simp)
    simp only [List.cons_append, List.takeWhile_cons, hx, if_true]
    rw [ih (fun z hz => ha z (by simp [hz]))]

theorem all_takeWhile_append {p : Char → Bool} {a : List Char} (t : List Char)
    (ha : ∀ x ∈ a, p x = true) :
    (a ++ t).takeWhile p = a ++ t.takeWhile p := by
  induction a with
  | nil => simp
  | cons x xs ih =>
    have hx : p x = true := ha x (by simp)
    simp only [List.cons_append, List.takeWhile_cons, hx, if_true]
    rw [ih (fun z hz => ha z (by simp [hz]))]

theorem runLen_le_length (p : Char → Bool) (l : List Char) : runLen p l ≤ l.length := by
  have h : List.Sublist (l.takeWhile p) l := List.takeWhile_sublist _
  simpa [runLen] using h.length_le

theorem take_runLen (p : Char → Bool) (l : List Char) :
    l.take (runLen p l) = l.takeWhile p := by
  have h := List.take_left (l.takeWhile p) (l.dropWhile p)
  rw [List.takeWhile_append_dropWhile] at h
  exact h

theorem all_take_of_le_runLen {p : Char → Bool} {l : List Char} {j : Nat}
    (hj : j ≤ runLen p l) : ∀ x ∈ l.take j, p x = true := by
  intro x hx
  have h1 : l.take j = (l.takeWhile p).take j := by
    have h : (l.takeWhile p ++ l.dropWhile p).take j = (l.takeWhile p).take j :=
      List.take_append_of_le_length hj
    rw [List.takeWhile_append_dropWhile] at h
    exact h
  rw [h1] at hx
  exact List.mem_takeWhile_imp (List.take_subset _ _ hx)

theorem drop_length_succ_append (b : List Char) (y : Char) (z : List Char) :
    (b ++ y :: z).drop (b.length + 1) = z := by
  simp

theorem downSearch_eq_some {cond : Nat → Bool} {n j : Nat}
    (h : downSearch cond n = some j) : cond j = true ∧ 1 ≤ j ∧ j ≤ n := by
  induction n with
  | zero => simp [downSearch] at h
  | succ k ih =>
    by_cases hc : cond (k + 1) = true
    · simp [downSearch, hc] at h
      subst h; exact ⟨hc, by omega, by omega⟩
    · simp [downSearch, hc] at h
      obtain ⟨h1, h2, h3⟩ := ih h
      exact ⟨h1, h2, by omega⟩

theorem downSearch_isSome {cond : Nat → Bool} {n j : Nat}
    (h1 : 1 ≤ j) (h2 : j ≤ n) (hc : cond j = true) :
    (downSearch cond n).isSome := by
  induction n with
  | zero => omega
  | succ k ih =>
    by_cases he : j = k + 1
    · subst he; simp [downSearch, hc]
    · by_cases hck : cond (k + 1) = true
      · simp [downSearch, hck]
      · simpa [downSearch, hck] using ih (by omega)

theorem domCond_iff (rest : List Char) (j : Nat) :
    domCond rest j = true ↔
      rest[j]? = some '.' ∧ 0 < runLen isWordChar (rest.drop (j + 1)) := by
  simp [domCond]

theorem matchDomain_sound {rest d : List Char} (h : matchDomain rest = some d) :
    (∃ b c : List Char, d = b ++ '.' :: c ∧ b ≠ [] ∧ c ≠ [] ∧
        (∀ x ∈ b, isAddrChar x) ∧ (∀ x ∈ c, isWordChar x)) ∧
      ∃ q, rest = d ++ q := by
  unfold matchDomain at h
  rcases hd : downSearch (domCond rest) (runLen isAddrChar rest) with _ | j
  · rw [hd] at h; exact absurd h (by simp)
  rw [hd] at h
  simp only [Option.some.injEq] at h
  obtain ⟨hcond, hj1, hjn⟩ := downSearch_eq_some hd
  obtain ⟨hdot, hword⟩ := (domCond_iff rest j).mp hcond
  have hjlt : j < rest.length := (List.getElem?_eq_some.mp hdot).1
  have hget : rest[j] = '.' := (List.getElem?_eq_some.mp hdot).2
  refine ⟨⟨rest.take j, (rest.drop (j + 1)).takeWhile isWordChar, ?_, ?_, ?_, ?_, ?_⟩, ?_⟩
  · exact h.symm
  · have : (rest.take j).length = j := by
      rw [List.length_take]; omega
    intro hnil; rw [hnil] at this; simp at this; omega
  · intro hnil
    have : runLen isWordChar (rest.drop (j + 1)) = 0 := by
      simp [runLen, hnil]
    omega
  · exact fun x hx => all_take_of_le_runLen hjn x hx
  · exact fun x hx => List.mem_takeWhile_imp hx
  · refine ⟨(rest.drop (j + 1)).dropWhile isWordChar, ?_⟩
    subst h
    have hsplit : rest = rest.take j ++ '.' :: rest.drop (j + 1) := by
      conv_lhs => rw [(List.take_append_drop j rest).symm]
      rw [List.drop_eq_getElem_cons hjlt, hget]
    conv_lhs => rw [hsplit]
    simp [List.takeWhile_append_dropWhile]

theorem matchDomain_complete {b c : List Char} (q : List Char)
    (hb : b ≠ []) (hc : c ≠ []) (hab : ∀ x ∈ b, isAddrChar x)
    (hwc : ∀ x ∈ c, isWordChar x) :
    (matchDomain (b ++ '.' :: (c ++ q))).isSome := by
  set rest := b ++ '.' :: (c ++ q) with hrest
  have hdot : rest[b.length]? = some '.' := by
    rw [hrest, List.getElem?_append_right (Nat.le_refl _)]
    simp
  have hdrop : rest.drop (b.length + 1) = c ++ q := by
    rw [hrest]; exact drop_length_succ_append _ _ _
  have hword : 0 < runLen isWordChar (rest.drop (b.length + 1)) := by
    rw [hdrop]
    rcases c with _ | ⟨c0, cs⟩
    · exact absurd rfl hc
    · have : isWordChar c0 = true := hwc c0 (by simp)
      simp [runLen, List.takeWhile_cons, this]
  have hcond : domCond rest b.length = true :=
    (domCond_iff rest b.length).mpr ⟨hdot, hword⟩
  have hlen : b.length ≤ runLen isAddrChar rest := by
    rw [hrest, runLen, all_takeWhile_append _ hab]
    simp
  have h1 : 1 ≤ b.length := by
    rcases b with _ | _
    · exact absurd rfl hb
    · simp
  have := downSearch_isSome h1 hlen hcond
  unfold matchDomain
  rcases hd : downSearch (domCond rest) (runLen isAddrChar rest) with _ | j
  · rw [hd] at this; simp at this
  · simp

theorem matchAt_sound {s m : List Char} (h : matchAt s = some m) :
    EmailShape m ∧ ∃ q, s = m ++ q := by
  unfold matchAt at h
  set l := runLen isAddrChar s with hl
  by_cases h0 : l = 0
  · rw [if_pos h0] at h; exact absurd h (by simp)
  rw [if_neg h0] at h
  by_cases hat : s[l]? = some '@'
  swap
  · rw [if_neg hat] at h; exact absurd h (by simp)
  rw [if_pos hat] at h
  rcases hd : matchDomain (s.drop (l + 1)) with _ | d
  · rw [hd] at h; exact absurd h (by simp)
  rw [hd] at h
  simp only [Option.some.injEq] at h
  obtain ⟨⟨b, c, hdbc, hbne, hcne, hball, hcall⟩, q, hq⟩ := matchDomain_sound hd
  have hlt : l < s.length := (List.getElem?_eq_some.mp hat).1
  have hget : s[l] = '@' := (List.getElem?_eq_some.mp hat).2
  have htake : s.take l = s.takeWhile isAddrChar := by
    rw [hl]; exact take_runLen _ _
  have hane : s.take l ≠ [] := by
    intro hnil
    have : (s.take l).length = l := by rw [List.length_take]; omega
    rw [hnil] at this; simp at this; omega
  have haall : ∀ x ∈ s.take l, isAddrChar x := by
    rw [htake]; exact fun x hx => List.mem_takeWhile_imp hx
  constructor
  · exact ⟨s.take l, b, c, by rw [h.symm, hdbc], hane, hbne, hcne, haall, hball, hcall⟩
  · refine ⟨q, ?_⟩
    have hsplit : s = s.take l ++ '@' :: s.drop (l + 1) := by
      conv_lhs => rw [(List.take_append_drop l s).symm]
      rw [List.drop_eq_getElem_cons hlt, hget]
    rw [hsplit, hq, h.symm]
    simp

theorem matchAt_complete {m q s : List Char} (hm : EmailShape m) (hs : s = m ++ q) :
    (matchAt s).isSome := by
  obtain ⟨a, b, c, hmeq, hane, hbne, hcne, haall, hball, hcall⟩ := hm
  have hs' : s = a ++ '@' :: (b ++ '.' :: (c ++ q)) := by
    rw [hs, hmeq]; simp
  have hrun : runLen isAddrChar s = a.length := by
    rw [hs', runLen, takeWhile_all_append '@' _ haall (by decide)]
  have h0 : runLen isAddrChar s ≠ 0 := by
    rw [hrun]
    rcases a with _ | _
    · exact absurd rfl hane
    · simp
  have hat : s[runLen isAddrChar s]? = some '@' := by
    rw [hrun, hs', List.getElem?_append_right (Nat.le_refl _)]
    simp
  have hdrop : s.drop (runLen isAddrChar s + 1) = b ++ '.' :: (c ++ q) := by
    rw [hrun, hs']; exact drop_length_succ_append _ _ _
  have hdom := matchDomain_complete q hbne hcne hball hcall
  unfold matchAt
  rw [if_neg h0, if_pos hat, hdrop]
  rcases hd : matchDomain (b ++ '.' :: (c ++ q)) with _ | d
  · rw [hd] at hdom; simp at hdom
  · simp

theorem EmailShape_ne_nil {m : List Char} (hm : EmailShape m) : m ≠ [] := by
  obtain ⟨a, b, c, hmeq, -, -, -, -, -, -⟩ := hm
  rw [hmeq]
  rcases a with _ | _ <;> simp

theorem searchEmail_none {s : List Char} (h : searchEmail s = none) :
    ∀ p m q, s = p ++ m ++ q → ¬ EmailShape m := by
  induction s with
  | nil =>
    intro p m q hpq hm
    have : m = [] := by
      rcases List.append_eq_nil.mp (List.append_eq_nil.mp hpq.symm).1 with ⟨-, h2⟩
      exact h2
    exact EmailShape_ne_nil hm this
  | cons x t ih =>
    intro p m q hpq hm
    have hmatch : matchAt (x :: t) = none := by
      unfold searchEmail at h
      rcases hma : matchAt (x :: t) with _ | v
      · rfl
      · rw [hma] at h; exact absurd h (by simp)
    have hrec : searchEmail t = none := by
      unfold searchEmail at h
      rw [hmatch] at h; exact h
    rcases p with _ | ⟨p0, ps⟩
    · simp only [List.nil_append] at hpq
      have := matchAt_complete hm hpq
      rw [hmatch] at this; simp at this
    · have hxp : x = p0 ∧ t = ps ++ m ++ q := by
        simpa using hpq
      exact ih hrec ps m q hxp.2 hm

theorem searchEmail_some {s m : List Char} (h : searchEmail s = some m) :
    EmailShape m ∧
      ∃ p q, s = p ++ m ++ q ∧
        ∀ p' m' q', s = p' ++ m' ++ q' → EmailShape m' → p.length ≤ p'.length := by
  induction s with
  | nil =>
    unfold searchEmail at h
    have : matchAt [] = none := by decide
    rw [this] at h; exact absurd h (by simp)
  | cons x t ih =>
    unfold searchEmail at h
    rcases hma : matchAt (x :: t) with _ | v
    · rw [hma] at h
      obtain ⟨hshape, p1, q1, heq, hmin⟩ := ih h
      refine ⟨hshape, x :: p1, q1, by simp [heq], ?_⟩
      intro p' m' q' hpq' hm'
      rcases p' with _ | ⟨p0, ps⟩
      · simp only [List.nil_append] at hpq'
        have := matchAt_complete hm' hpq'
        rw [hma] at this; simp at this
      · have hxp : x = p0 ∧ t = ps ++ m' ++ q' := by simpa using hpq'
        have := hmin ps m' q' hxp.2 hm'
        simp [this]
    · rw [hma] at h
      simp only [Option.some.injEq] at h
      subst h
      obtain ⟨hshape, q, hq⟩ := matchAt_sound hma
      exact ⟨hshape, [], q, by simpa using hq, fun p' m' q' _ _ => by simp⟩

/-! ### One loop iteration, characterised -/

theorem rowFinalCells_not_sent {cfg : Cfg} {env : Env} {i : Nat} {row : Cells}
    (h : rowSent cfg env i row = false) : rowFinalCells cfg env i row = row := by
  unfold rowSent callOk at h
  unfold rowFinalCells
  rcases hc : callResult cfg env i with e | pm
  · rfl
  · rw [hc] at h
    simp only [Bool.and_eq_false_iff] at h
    rcases h with h | h
    · simp [h]
    · simp at h

theorem processRow_eq (cfg : Cfg) (env : Env) (i : Nat) (st : St) :
    processRow cfg env i st =
      { rows :=
          if rowSent cfg env i (st.rows.getD i []) then
            st.rows.set i (rowFinalCells cfg env i (st.rows.getD i []))
          else st.rows
        sent := st.sent + (if rowSent cfg env i (st.rows.getD i []) then 1 else 0)
        skipped := st.skipped ++ (skipEntry (st.rows.getD i [])).toList
        errors := st.errors ++ (errEntry cfg env i (st.rows.getD i [])).toList
        trace := st.trace ++ rowEvents cfg env i (st.rows.getD i []) st.sent st.rows.length } := by
  have hcall : (if cfg.mode = Mode.draft then env.draftRes i else env.sendRes i) =
      callResult cfg env i := rfl
  rcases h1 : rowAddr (st.rows[i]?.getD []) with _ | addr
  all_goals unfold rowAddr at h1
  · simp [processRow, h1, rowSent, rowDispatched, rowAddr, skipEntry, errEntry, rowEvents]
  · rcases h2 : pyFormat cfg.subjectT.data (st.rows[i]?.getD []) with e | subjChars
    · simp [processRow, h1, h2, rowSent, rowDispatched, rowAddr, renderOk,
        skipEntry, errEntry, rowEvents]
    · rcases h3 : pyFormat cfg.bodyT.data (st.rows[i]?.getD []) with e | bodyChars
      · simp [processRow, h1, h2, h3, rowSent, rowDispatched, rowAddr, renderOk,
          skipEntry, errEntry, rowEvents]
      · rcases hm : cfg.mode with _ | _ | _
        · rcases h4 : env.sendRes i with e | pm
          · simp [processRow, h1, h2, h3, hm, h4, callResult, rowSent, rowDispatched,
              rowAddr, renderOk, callOk, skipEntry, errEntry, rowEvents, rowPayload,
              Except.toOption]
          · by_cases hw : cfg.labelId.getD "" ≠ "" ∧ pm.id.getD "" ≠ "" ∧
              env.labelApplied i = false
            · simp [processRow, h1, h2, h3, hm, h4, hw, callResult, rowSent,
                rowDispatched, rowAddr, renderOk, callOk, skipEntry, errEntry,
                rowEvents, rowPayload, rowFinalCells, labelWarn, progressFrac,
                progressEta, Except.toOption]
            · simp [processRow, h1, h2, h3, hm, h4, hw, callResult, rowSent,
                rowDispatched, rowAddr, renderOk, callOk, skipEntry, errEntry,
                rowEvents, rowPayload, rowFinalCells, labelWarn, progressFrac,
                progressEta, Except.toOption]
        · rcases h4 : env.sendRes i with e | pm
          · simp [processRow, h1, h2, h3, hm, h4, callResult, rowSent, rowDispatched,
              rowAddr, renderOk, callOk, skipEntry, errEntry, rowEvents, rowPayload,
              Except.toOption]
          · simp [processRow, h1, h2, h3, hm, h4, callResult, rowSent, rowDispatched,
              rowAddr, renderOk, callOk, skipEntry, errEntry, rowEvents, rowPayload,
              rowFinalCells, labelWarn, progressFrac, progressEta, Except.toOption]
        · rcases h4 : env.draftRes i with e | pm
          · simp [processRow, h1, h2, h3, hm, h4, callResult, rowSent, rowDispatched,
              rowAddr, renderOk, callOk, skipEntry, errEntry, rowEvents, rowPayload,
              Except.toOption]
          · simp [processRow, h1, h2, h3, hm, h4, callResult, rowSent, rowDispatched,
              rowAddr, renderOk, callOk, skipEntry, errEntry, rowEvents, rowPayload,
              rowFinalCells, labelWarn, progressFrac, progressEta, Except.toOption]

/-! ### The loop as a fold -/

theorem runFold_nil (cfg : Cfg) (env : Env) (st : St) : runFold cfg env st [] = st := rfl

theorem runFold_cons (cfg : Cfg) (env : Env) (st : St) (i : Nat) (rest : List Nat) :
    runFold cfg env st (i :: rest) = runFold cfg env (processRow cfg env i st) rest := rfl

theorem loopFrom_no_interrupt (cfg : Cfg) (env : Env) (idxs : List Nat) (st : St)
    (h : ∀ i ∈ idxs, obsStop env i = false ∧ env.fatalAt ≠ some i) :
    loopFrom cfg env idxs st = (runFold cfg env st idxs, EndK.exhausted) := by
  induction idxs generalizing st with
  | nil => rfl
  | cons i rest ih =>
    obtain ⟨hs, hf⟩ := h i (by simp)
    rw [loopFrom, hs, runFold_cons]
    simp only [Bool.false_eq_true, if_false]
    rw [if_neg hf]
    exact ih _ (fun j hj => h j (by simp [hj]))

theorem loopFrom_stopped (cfg : Cfg) (env : Env) (idxs₁ : List Nat) (k : Nat)
    (idxs₂ : List Nat) (st : St)
    (h : ∀ i ∈ idxs₁, obsStop env i = false ∧ env.fatalAt ≠ some i)
    (hk : obsStop env k = true) :
    loopFrom cfg env (idxs₁ ++ k :: idxs₂) st = (runFold cfg env st idxs₁, EndK.stopped) := by
  induction idxs₁ generalizing st with
  | nil => simp [loopFrom, hk, runFold_nil]
  | cons i rest ih =>
    obtain ⟨hs, hf⟩ := h i (by simp)
    rw [List.cons_append, loopFrom, hs, runFold_cons]
    simp only [Bool.false_eq_true, if_false]
    rw [if_neg hf]
    exact ih _ (fun j hj => h j (by simp [hj]))

theorem processRow_rows_length (cfg : Cfg) (env : Env) (i : Nat) (st : St) :
    (processRow cfg env i st).rows.length = st.rows.length := by
  rw [processRow_eq]
  dsimp only
  split <;> simp [List.length_set]

theorem processRow_rows_ne (cfg : Cfg) (env : Env) {i j : Nat} (st : St) (hij : i ≠ j) :
    (processRow cfg env i st).rows[j]? = st.rows[j]? := by
  rw [processRow_eq]
  dsimp only
  split
  · exact List.getElem?_set_ne hij
  · rfl

theorem processRow_rows_self (cfg : Cfg) (env : Env) (i : Nat) (st : St) :
    (processRow cfg env i st).rows[i]? = (st.rows[i]?).map (rowFinalCells cfg env i) := by
  rw [processRow_eq]
  dsimp only
  by_cases hs : rowSent cfg env i (st.rows.getD i []) = true
  · rw [if_pos hs]
    rcases hlt : st.rows[i]? with _ | row
    · have : st.rows.length ≤ i := by
        by_contra hc
        simp only [not_le] at hc
        rw [List.getElem?_eq_getElem hc] at hlt
        exact absurd hlt (by simp)
      simp [hlt, List.getElem?_eq_none_iff, List.length_set, this]
    · have hi : i < st.rows.length := by
        by_contra hc
        simp only [not_lt] at hc
        rw [List.getElem?_eq_none_iff.mpr hc] at hlt
        exact absurd hlt (by simp)
      have hgd : st.rows.getD i [] = row := by
        simp [List.getD_eq_getElem?_getD, hlt]
      rw [hgd]
      simp [List.getElem?_set_self', hi, hlt]
  · rw [if_neg hs]
    rcases hlt : st.rows[i]? with _ | row
    · rfl
    · have hgd : st.rows.getD i [] = row := by
        simp [List.getD_eq_getElem?_getD, hlt]
      rw [hgd] at hs
      simp [rowFinalCells_not_sent (Bool.eq_false_iff.mpr hs)]

theorem processRow_getD_ne (cfg : Cfg) (env : Env) {i j : Nat} (st : St) (hij : i ≠ j) :
    (processRow cfg env i st).rows.getD j [] = st.rows.getD j [] := by
  simp [List.getD_eq_getElem?_getD, processRow_rows_ne cfg env st hij]

theorem runFold_rows_length (cfg : Cfg) (env : Env) (idxs : List Nat) (st : St) :
    (runFold cfg env st idxs).rows.length = st.rows.length := by
  induction idxs generalizing st with
  | nil => rfl
  | cons i rest ih => rw [runFold_cons, ih, processRow_rows_length]

theorem runFold_rows_notMem (cfg : Cfg) (env : Env) (idxs : List Nat) (st : St)
    {j : Nat} (hj : j ∉ idxs) :
    (runFold cfg env st idxs).rows[j]? = st.rows[j]? := by
  induction idxs generalizing st with
  | nil => rfl
  | cons i rest ih =>
    have hjr : j ∉ rest := fun hc => hj (List.mem_cons_of_mem _ hc)
    have hij : i ≠ j := fun hc => hj (by simp [hc])
    rw [runFold_cons, ih _ hjr, processRow_rows_ne cfg env st hij]

theorem runFold_sent (cfg : Cfg) (env : Env) (idxs : List Nat) (st : St)
    (hnd : idxs.Nodup) :
    (runFold cfg env st idxs).sent =
      st.sent + (idxs.filter (fun i => rowSent cfg env i (st.rows.getD i []))).length := by
  induction idxs generalizing st with
  | nil => simp [runFold_nil]
  | cons i rest ih =>
    have hni : i ∉ rest := (List.nodup_cons.mp hnd).1
    rw [runFold_cons, ih _ (List.nodup_cons.mp hnd).2]
    have hsent : (processRow cfg env i st).sent =
        st.sent + (if rowSent cfg env i (st.rows.getD i []) then 1 else 0) := by
      rw [processRow_eq]
    have hrowsj : ∀ j ∈ rest, (processRow cfg env i st).rows.getD j [] = st.rows.getD j [] :=
      fun j hj => processRow_getD_ne cfg env st (fun hc => hni (hc ▸ hj))
    rw [hsent, List.filter_congr (fun j hj => by rw [hrowsj j hj])]
    simp only [List.filter_cons]
    split
    · simp; omega
    · simp

theorem runFold_skipped (cfg : Cfg) (env : Env) (idxs : List Nat) (st : St)
    (hnd : idxs.Nodup) :
    (runFold cfg env st idxs).skipped =
      st.skipped ++ idxs.filterMap (fun i => skipEntry (st.rows.getD i [])) := by
  induction idxs generalizing st with
  | nil => simp [runFold_nil]
  | cons i rest ih =>
    have hni : i ∉ rest := (List.nodup_cons.mp hnd).1
    rw [runFold_cons, ih _ (List.nodup_cons.mp hnd).2]
    have hskip : (processRow cfg env i st).skipped =
        st.skipped ++ (skipEntry (st.rows.getD i [])).toList := by
      rw [processRow_eq]
    have hrowsj : ∀ j ∈ rest, (processRow cfg env i st).rows.getD j [] = st.rows.getD j [] :=
      fun j hj => processRow_getD_ne cfg env st (fun hc => hni (hc ▸ hj))
    rw [hskip, List.filterMap_congr (fun j hj => by rw [hrowsj j hj])]
    rcases h : skipEntry (st.rows.getD i []) with _ | v <;>
      simp only [List.getD_eq_getElem?_getD] at h <;>
      simp [List.filterMap_cons, h]

theorem runFold_errors (cfg : Cfg) (env : Env) (idxs : List Nat) (st : St)
    (hnd : idxs.Nodup) :
    (runFold cfg env st idxs).errors =
      st.errors ++ idxs.filterMap (fun i => errEntry cfg env i (st.rows.getD i [])) := by
  induction idxs generalizing st with
  | nil => simp [runFold_nil]
  | cons i rest ih =>
    have hni : i ∉ rest := (List.nodup_cons.mp hnd).1
    rw [runFold_cons, ih _ (List.nodup_cons.mp hnd).2]
    have herr : (processRow cfg env i st).errors =
        st.errors ++ (errEntry cfg env i (st.rows.getD i [])).toList := by
      rw [processRow_eq]
    have hrowsj : ∀ j ∈ rest, (processRow cfg env i st).rows.getD j [] = st.rows.getD j [] :=
      fun j hj => processRow_getD_ne cfg env st (fun hc => hni (hc ▸ hj))
    rw [herr, List.filterMap_congr (fun j hj => by rw [hrowsj j hj])]
    rcases h : errEntry cfg env i (st.rows.getD i []) with _ | v <;>
      simp only [List.getD_eq_getElem?_getD] at h <;>
      simp [List.filterMap_cons, h]

theorem specTrace_congr (cfg : Cfg) (env : Env) {rowOf₁ rowOf₂ : Nat → Cells}
    (total : Nat) (idxs : List Nat) (sent0 : Nat)
    (h : ∀ i ∈ idxs, rowOf₁ i = rowOf₂ i) :
    specTrace cfg env rowOf₁ total idxs sent0 = specTrace cfg env rowOf₂ total idxs sent0 := by
  induction idxs generalizing sent0 with
  | nil => rfl
  | cons i rest ih =>
    have hi : rowOf₁ i = rowOf₂ i := h i (by simp)
    simp only [specTrace, hi]
    rw [ih _ (fun j hj => h j (by simp [hj]))]

theorem runFold_trace (cfg : Cfg) (env : Env) (idxs : List Nat) (st : St)
    (hnd : idxs.Nodup) :
    (runFold cfg env st idxs).trace =
      st.trace ++
        specTrace cfg env (fun i => st.rows.getD i []) st.rows.length idxs st.sent := by
  induction idxs generalizing st with
  | nil => simp [runFold_nil, specTrace]
  | cons i rest ih =>
    have hni : i ∉ rest := (List.nodup_cons.mp hnd).1
    rw [runFold_cons, ih _ (List.nodup_cons.mp hnd).2]
    have htr : (processRow cfg env i st).trace =
        st.trace ++ rowEvents cfg env i (st.rows.getD i []) st.sent st.rows.length := by
      rw [processRow_eq]
    have hsent : (processRow cfg env i st).sent =
        st.sent + (if rowSent cfg env i (st.rows.getD i []) then 1 else 0) := by
      rw [processRow_eq]
    have hrowsj : ∀ j ∈ rest, (processRow cfg env i st).rows.getD j [] = st.rows.getD j [] :=
      fun j hj => processRow_getD_ne cfg env st (fun hc => hni (hc ▸ hj))
    rw [htr, hsent, processRow_rows_length, specTrace_congr cfg env _ _ _ hrowsj]
    simp [specTrace]

theorem runFold_rows_mem (cfg : Cfg) (env : Env) (idxs : List Nat) (st : St)
    (hnd : idxs.Nodup) {i : Nat} (hi : i ∈ idxs) :
    (runFold cfg env st idxs).rows[i]? = (st.rows[i]?).map (rowFinalCells cfg env i) := by
  induction idxs generalizing st with
  | nil => simp at hi
  | cons j rest ih =>
    have hndr := (List.nodup_cons.mp hnd).2
    have hnj : j ∉ rest := (List.nodup_cons.mp hnd).1
    rw [runFold_cons]
    rcases List.mem_cons.mp hi with he | hr
    · subst he
      rw [runFold_rows_notMem cfg env rest _ hnj, processRow_rows_self]
    · have hji : j ≠ i := fun hc => hnj (hc ▸ hr)
      rw [ih _ hndr hr, processRow_rows_ne cfg env st hji]

/-! ### Traces of one iteration and of whole runs -/

theorem providerCallIdxs_rowEvents (cfg : Cfg) (env : Env) (i : Nat) (row : Cells)
    (sent0 total : Nat) :
    providerCallIdxs (rowEvents cfg env i row sent0 total) =
      if rowDispatched cfg row then [i] else [] := by
  unfold rowEvents rowDispatched providerCallIdxs
  rcases h1 : rowAddr row with _ | addr
  · simp [h1]
  · simp only [h1]
    by_cases h2 : renderOk (pyFormat cfg.subjectT.data row) &&
        renderOk (pyFormat cfg.bodyT.data row)
    · rw [if_pos h2]
      rcases h4 : callResult cfg env i with e | pm
      · simp [h2]
      · by_cases hw : labelWarn cfg env i pm = true <;> simp [h2, hw]
    · rw [if_neg h2]
      simp only [Bool.and_eq_true] at h2 ⊢
      simp [h2]

theorem writeBackIdxs_rowEvents (cfg : Cfg) (env : Env) (i : Nat) (row : Cells)
    (sent0 total : Nat) :
    writeBackIdxs (rowEvents cfg env i row sent0 total) =
      if rowSent cfg env i row then [i] else [] := by
  unfold rowEvents rowSent rowDispatched callOk writeBackIdxs
  rcases h1 : rowAddr row with _ | addr
  · simp [h1]
  · simp only [h1]
    by_cases h2 : renderOk (pyFormat cfg.subjectT.data row) &&
        renderOk (pyFormat cfg.bodyT.data row)
    · rw [if_pos h2]
      rcases h4 : callResult cfg env i with e | pm
      · simp [h2, h4]
      · by_cases hw : labelWarn cfg env i pm = true <;> simp [h2, h4, hw]
    · rw [if_neg h2]
      simp only [Bool.and_eq_true] at h2 ⊢
      rcases h4 : callResult cfg env i with e | pm <;> simp [h2]

theorem progressEvs_rowEvents_length (cfg : Cfg) (env : Env) (i : Nat) (row : Cells)
    (sent0 total : Nat) :
    (progressEvs (rowEvents cfg env i row sent0 total)).length =
      if rowSent cfg env i row then 1 else 0 := by
  unfold rowEvents rowSent rowDispatched callOk progressEvs
  rcases h1 : rowAddr row with _ | addr
  · simp [h1]
  · simp only [h1]
    by_cases h2 : renderOk (pyFormat cfg.subjectT.data row) &&
        renderOk (pyFormat cfg.bodyT.data row)
    · rw [if_pos h2]
      rcases h4 : callResult cfg env i with e | pm
      · simp [h2, h4]
      · by_cases hw : labelWarn cfg env i pm = true <;> simp [h2, h4, hw]
    · rw [if_neg h2]
      simp only [Bool.and_eq_true] at h2 ⊢
      rcases h4 : callResult cfg env i with e | pm <;> simp [h2]

theorem progress_mem_rowEvents (cfg : Cfg) (env : Env) (i : Nat) (row : Cells)
    (sent0 total : Nat) {s tot : Nat} {f e : ℚ}
    (h : Ev.progress s tot f e ∈ rowEvents cfg env i row sent0 total) :
    s = sent0 + 1 ∧ tot = total ∧ f = progressFrac s total ∧ e = progressEta env i s total := by
  unfold rowEvents at h
  rcases h1 : rowAddr row with _ | addr <;> rw [h1] at h
  · simp at h
  · by_cases h2 : renderOk (pyFormat cfg.subjectT.data row) &&
        renderOk (pyFormat cfg.bodyT.data row)
    · rw [if_pos h2] at h
      rcases h4 : callResult cfg env i with e' | pm <;> rw [h4] at h
      · simp at h
      · by_cases hw : labelWarn cfg env i pm = true <;>
          simp [hw] at h <;>
          · obtain ⟨hs, htot, hf, he⟩ := h
            subst hs; subst htot
            exact ⟨rfl, rfl, hf, he⟩
    · rw [if_neg h2] at h
      simp at h

theorem providerCall_mem_rowEvents (cfg : Cfg) (env : Env) (i : Nat) (row : Cells)
    (sent0 total : Nat) {j : Nat} {b : Bool} {pl : MsgBody}
    (h : Ev.providerCall j b pl ∈ rowEvents cfg env i row sent0 total) :
    j = i ∧ b = decide (cfg.mode = Mode.draft) ∧ pl = rowPayload cfg row ∧
      rowDispatched cfg row = true := by
  unfold rowEvents at h
  rcases h1 : rowAddr row with _ | addr <;> rw [h1] at h
  · simp at h
  · by_cases h2 : renderOk (pyFormat cfg.subjectT.data row) &&
        renderOk (pyFormat cfg.bodyT.data row)
    · rw [if_pos h2] at h
      have hd : rowDispatched cfg row = true := by
        unfold rowDispatched
        simp [h1, h2]
      rcases h4 : callResult cfg env i with e' | pm <;> rw [h4] at h
      · simp at h
        exact ⟨h.1, h.2.1, h.2.2, hd⟩
      · by_cases hw : labelWarn cfg env i pm = true <;> simp [hw] at h <;>
          exact ⟨h.1, h.2.1, h.2.2, hd⟩
    · rw [if_neg h2] at h
      simp at h

theorem providerCallIdxs_append (t₁ t₂ : List Ev) :
    providerCallIdxs (t₁ ++ t₂) = providerCallIdxs t₁ ++ providerCallIdxs t₂ :=
  List.filterMap_append _ _ _

theorem writeBackIdxs_append (t₁ t₂ : List Ev) :
    writeBackIdxs (t₁ ++ t₂) = writeBackIdxs t₁ ++ writeBackIdxs t₂ :=
  List.filterMap_append _ _ _

theorem progressEvs_append (t₁ t₂ : List Ev) :
    progressEvs (t₁ ++ t₂) = progressEvs t₁ ++ progressEvs t₂ :=
  List.filter_append _ _

theorem providerCallIdxs_specTrace (cfg : Cfg) (env : Env) (rowOf : Nat → Cells)
    (total : Nat) (idxs : List Nat) (sent0 : Nat) :
    providerCallIdxs (specTrace cfg env rowOf total idxs sent0) =
      idxs.filter (fun i => rowDispatched cfg (rowOf i)) := by
  induction idxs generalizing sent0 with
  | nil => rfl
  | cons i rest ih =>
    rw [specTrace, providerCallIdxs_append, providerCallIdxs_rowEvents, ih,
      List.filter_cons]
    split <;> simp_all

theorem writeBackIdxs_specTrace (cfg : Cfg) (env : Env) (rowOf : Nat → Cells)
    (total : Nat) (idxs : List Nat) (sent0 : Nat) :
    writeBackIdxs (specTrace cfg env rowOf total idxs sent0) =
      idxs.filter (fun i => rowSent cfg env i (rowOf i)) := by
  induction idxs generalizing sent0 with
  | nil => rfl
  | cons i rest ih =>
    rw [specTrace, writeBackIdxs_append, writeBackIdxs_rowEvents, ih, List.filter_cons]
    split <;> simp_all

theorem progressEvs_specTrace_length (cfg : Cfg) (env : Env) (rowOf : Nat → Cells)
    (total : Nat) (idxs : List Nat) (sent0 : Nat) :
    (progressEvs (specTrace cfg env rowOf total idxs sent0)).length =
      (idxs.filter (fun i => rowSent cfg env i (rowOf i))).length := by
  induction idxs generalizing sent0 with
  | nil => rfl
  | cons i rest ih =>
    rw [specTrace, progressEvs_append, List.length_append, progressEvs_rowEvents_length,
      ih, List.filter_cons]
    split
    · simp_all
      omega
    · simp_all

theorem progress_mem_specTrace (cfg : Cfg) (env : Env) (rowOf : Nat → Cells)
    (total : Nat) (idxs : List Nat) (sent0 : Nat) {s tot : Nat} {f e : ℚ}
    (h : Ev.progress s tot f e ∈ specTrace cfg env rowOf total idxs sent0) :
    tot = total ∧ 0 < s ∧ f = progressFrac s total ∧ ∃ i ∈ idxs, e = progressEta env i s total := by
  induction idxs generalizing sent0 with
  | nil => simp [specTrace] at h
  | cons i rest ih =>
    rw [specTrace, List.mem_append] at h
    rcases h with h | h
    · obtain ⟨hs, htot, hf, he⟩ := progress_mem_rowEvents cfg env i (rowOf i) sent0 total h
      exact ⟨htot, by omega, hf, i, by simp, he⟩
    · obtain ⟨htot, hpos, hf, j, hj, he⟩ := ih _ h
      exact ⟨htot, hpos, hf, j, by simp [hj], he⟩

theorem providerCall_mem_specTrace (cfg : Cfg) (env : Env) (rowOf : Nat → Cells)
    (total : Nat) (idxs : List Nat) (sent0 : Nat) {j : Nat} {b : Bool} {pl : MsgBody}
    (h : Ev.providerCall j b pl ∈ specTrace cfg env rowOf total idxs sent0) :
    j ∈ idxs ∧ b = decide (cfg.mode = Mode.draft) ∧ pl = rowPayload cfg (rowOf j) ∧
      rowDispatched cfg (rowOf j) = true := by
  induction idxs generalizing sent0 with
  | nil => simp [specTrace] at h
  | cons i rest ih =>
    rw [specTrace, List.mem_append] at h
    rcases h with h | h
    · obtain ⟨hj, hb, hpl, hd⟩ := providerCall_mem_rowEvents cfg env i (rowOf i) sent0 total h
      subst hj
      exact ⟨by simp, hb, hpl, hd⟩
    · obtain ⟨hj, hb, hpl, hd⟩ := ih _ h
      exact ⟨by simp [hj], hb, hpl, hd⟩

/-- Every row falls in exactly one of: sent, skipped, failed. -/
theorem row_partition (cfg : Cfg) (env : Env) (i : Nat) (row : Cells) :
    (if rowSent cfg env i row then 1 else 0) + (skipEntry row).toList.length +
      (errEntry cfg env i row).toList.length = 1 := by
  unfold rowSent rowDispatched callOk skipEntry errEntry
  rcases h1 : rowAddr row with _ | addr
  · simp
  · rcases h2 : pyFormat cfg.subjectT.data row with e | subjChars
    · simp [renderOk, h2]
    · rcases h3 : pyFormat cfg.bodyT.data row with e | bodyChars
      · simp [renderOk, h2, h3]
      · rcases h4 : callResult cfg env i with e | pm <;> simp [renderOk, h2, h3, h4]

theorem counts_sum (cfg : Cfg) (env : Env) (rowOf : Nat → Cells) (idxs : List Nat) :
    (idxs.filter (fun i => rowSent cfg env i (rowOf i))).length +
      (idxs.filterMap (fun i => skipEntry (rowOf i))).length +
      (idxs.filterMap (fun i => errEntry cfg env i (rowOf i))).length = idxs.length := by
  induction idxs with
  | nil => rfl
  | cons i rest ih =>
    have hp := row_partition cfg env i (rowOf i)
    rw [List.filter_cons, List.filterMap_cons, List.filterMap_cons]
    rcases h : skipEntry (rowOf i) with _ | v <;>
      rcases h' : errEntry cfg env i (rowOf i) with _ | w <;>
      rw [h, h'] at hp <;> split_ifs at hp ⊢ <;> simp_all <;> omega

/-! ### Row cell access lemmas -/

theorem getCol_setCol_self (r : Cells) (k v : String) :
    getCol (setCol r k v) k = some v := by
  induction r with
  | nil => simp [setCol, getCol]
  | cons kv rest ih =>
    by_cases h : kv.1 == k
    · rcases kv with ⟨k₀, v₀⟩
      simp only [setCol]
      rw [if_pos h]
      simp [getCol, h]
    · rcases kv with ⟨k₀, v₀⟩
      simp only [setCol]
      rw [if_neg h]
      simpa [getCol, List.find?, h] using ih

theorem getCol_setCol_ne (r : Cells) (k v col : String) (h : k ≠ col) :
    getCol (setCol r k v) col = getCol r col := by
  induction r with
  | nil =>
    simp only [setCol, getCol, List.find?]
    have : ¬(k == col) = true := by simpa using h
    simp [this]
  | cons kv rest ih =>
    rcases kv with ⟨k₀, v₀⟩
    by_cases h₀ : k₀ == k
    · simp only [setCol]
      rw [if_pos h₀]
      have hk : k₀ = k := by simpa using h₀
      subst hk
      have : ¬(k₀ == col) = true := by simpa using h
      simp [getCol, List.find?, this]
    · simp only [setCol]
      rw [if_neg h₀]
      by_cases hc : k₀ == col
      · simp [getCol, List.find?, hc]
      · simpa [getCol, List.find?, hc] using ih

theorem getCol_append_other (r : Cells) (k v col : String) (h : k ≠ col) :
    getCol (r ++ [(k, v)]) col = getCol r col := by
  induction r with
  | nil =>
    have : ¬(k == col) = true := by simpa using h
    simp [getCol, List.find?, this]
  | cons kv rest ih =>
    rcases kv with ⟨k₀, v₀⟩
    by_cases hc : k₀ == col
    · simp [getCol, List.find?, hc]
    · simpa [getCol, List.find?, hc] using ih

theorem getCol_initRow_other (r : Cells) (col : String)
    (h1 : col ≠ "ThreadId") (h2 : col ≠ "RfcMessageId") :
    getCol (initRow r) col = getCol r col := by
  have hgen : ∀ (r' : Cells) (k : String), k ≠ col →
      getCol (if hasCol r' k then r' else r' ++ [(k, "None")]) col = getCol r' col := by
    intro r' k hk
    split
    · rfl
    · exact getCol_append_other r' k "None" col hk
  unfold initRow
  dsimp only
  rw [hgen _ _ (fun hc => h2 hc.symm), hgen _ _ (fun hc => h1 hc.symm)]

theorem getD_map_initRow (df : List Cells) {i : Nat} (hi : i < df.length) :
    (df.map initRow).getD i [] = initRow (df.getD i []) := by
  rw [List.getD_eq_getElem?_getD, List.getD_eq_getElem?_getD, List.getElem?_map,
    List.getElem?_eq_getElem hi]
  simp

/-- Splitting `range N` at a position `k < N`. -/
theorem range_split (k N : Nat) (h : k < N) :
    ∃ tail, List.range N = List.range k ++ k :: tail := by
  obtain ⟨m, hm⟩ : ∃ m, N - k = m + 1 := ⟨N - k - 1, by omega⟩
  have hN : N = k + (m + 1) := by omega
  refine ⟨(List.range m).map (fun x => k + Nat.succ x), ?_⟩
  rw [hN, List.range_add, List.range_succ_eq_map]
  simp

/-! ## Claim theorems -/

/-- **C6** (functional correctness of the recipient validator): for every
input cell value — absent or any string — `extract_email` never raises (it
is a total function of its input); when it returns a string, that string is
a substring of the input matching the `local-part@domain.tld` address
pattern and it starts at the leftmost position at which any matching
substring starts (it is the first matching substring); when it returns an
absent result, no substring of the input matches the pattern; the absent
input yields an absent result.  In particular, for a cell containing a
valid address substring embedded in surrounding text, the extracted string
is exactly the first pattern-matching substring of the cell. -/
theorem c6_extract_email_first_match :
    extract_email none = none ∧
    (∀ v : String, extract_email (some v) = none →
      ∀ p m q : List Char, v.data = p ++ m ++ q → ¬ EmailShape m) ∧
    (∀ v r : String, extract_email (some v) = some r →
      EmailShape r.data ∧
        ∃ p q : List Char, v.data = p ++ r.data ++ q ∧
          ∀ p' m q' : List Char, v.data = p' ++ m ++ q' → EmailShape m →
            p.length ≤ p'.length) := by
  refine ⟨rfl, ?_, ?_⟩
  · intro v hv p m q hpq hm
    by_cases h0 : v = ""
    · subst h0
      have : m = [] := by
        have hd : ([] : List Char) = p ++ m ++ q := hpq
        rcases List.append_eq_nil.mp (List.append_eq_nil.mp hd.symm).1 with ⟨-, h2⟩
        exact h2
      exact EmailShape_ne_nil hm this
    · rw [extract_email, if_neg h0] at hv
      have hnone : searchEmail v.data = none := by
        rcases hs : searchEmail v.data with _ | m'
        · rfl
        · rw [hs] at hv
          exact absurd hv (by simp)
      exact searchEmail_none hnone p m q hpq hm
  · intro v r hr
    by_cases h0 : v = ""
    · subst h0
      rw [extract_email, if_pos rfl] at hr
      exact absurd hr (by simp)
    · rw [extract_email, if_neg h0] at hr
      rcases hs : searchEmail v.data with _ | m
      · rw [hs] at hr
        exact absurd hr (by simp)
      · rw [hs] at hr
        simp only [Option.map_some', Option.some.injEq] at hr
        have hrd : r.data = m := by rw [hr.symm]; rfl
        obtain ⟨hshape, p, q, heq, hmin⟩ := searchEmail_some hs
        rw [hrd]
        exact ⟨hshape, p, q, heq, hmin⟩

/-- Witness for C6: a concrete cell with an address embedded in text; the
validator extracts it and the extracted string matches the pattern. -/
theorem c6_witness :
    extract_email (some "contact: bob-2@mail.example.com please") =
        some "bob-2@mail.example.com" ∧
    EmailShape ("bob-2@mail.example.com".data) :=
  ⟨by decide,
    (c6_extract_email_first_match.2.2 "contact: bob-2@mail.example.com please"
      "bob-2@mail.example.com" (by decide)).1⟩

/-! ### Digest shape lemmas for C8 -/

theorem sha1_length (msg : List Nat) : (sha1 msg).length = 20 := by
  simp [sha1, wordBytes]

theorem wordBytes_lt (w : Nat) : ∀ b ∈ wordBytes w, b < 256 := by
  intro b hb
  simp only [wordBytes, List.mem_cons, List.not_mem_nil, or_false] at hb
  rcases hb with h | h | h | h <;> rw [h] <;> exact Nat.mod_lt _ (by omega)

theorem sha1_bytes_lt (msg : List Nat) : ∀ b ∈ sha1 msg, b < 256 := by
  intro b hb
  unfold sha1 at hb
  rcases List.mem_append.mp hb with hb | h
  rotate_left
  · exact wordBytes_lt _ _ h
  rcases List.mem_append.mp hb with hb | h
  rotate_left
  · exact wordBytes_lt _ _ h
  rcases List.mem_append.mp hb with hb | h
  rotate_left
  · exact wordBytes_lt _ _ h
  rcases List.mem_append.mp hb with hb | h
  · exact wordBytes_lt _ _ hb
  · exact wordBytes_lt _ _ h

theorem hexChars_length (bs : List Nat) : (hexChars bs).length = 2 * bs.length := by
  induction bs with
  | nil => rfl
  | cons b rest ih => simp [hexChars, byteHex, ih]; omega

theorem hexDigit_mem {n : Nat} (h : n < 16) : hexDigit n ∈ ("0123456789abcdef".data) := by
  interval_cases n <;> decide

theorem hexChars_mem (bs : List Nat) (hb : ∀ b ∈ bs, b < 256) :
    ∀ c ∈ hexChars bs, c ∈ ("0123456789abcdef".data) := by
  induction bs with
  | nil => intro c hc; simp [hexChars] at hc
  | cons b rest ih =>
    intro c hc
    have hblt : b < 256 := hb b (by simp)
    simp only [hexChars, byteHex, List.cons_append, List.nil_append, List.mem_cons] at hc
    rcases hc with h | h | h
    · rw [h]; exact hexDigit_mem (by omega)
    · rw [h]; exact hexDigit_mem (Nat.mod_lt _ (by omega))
    · exact ih (fun x hx => hb x (by simp [hx])) c h

/-- **C8** (run fingerprint): the signature is exactly the first 12
characters of the SHA-1 hex digest of the sample bytes followed by the
UTF-8 bytes of subject, body, mode and label; when serialisation of the
50-row prefix fails, the empty byte string is substituted and the signature
is still produced; the result always has length 12 and consists of hex
digits; and it is a deterministic function of the five inputs: byte-equal
inputs give equal signatures. -/
theorem c8_signature_spec :
    ∀ (serialize : List Cells → Except String (List Nat)) (df : List Cells)
      (subject body mode label : String),
      compute_run_signature serialize df subject body mode label =
        List.asString ((hexChars (sha1 (sampleBytes serialize df ++ utf8 subject ++
          utf8 body ++ utf8 mode ++ utf8 label))).take 12) ∧
      (∀ e, serialize (df.take 50) = Except.error e → sampleBytes serialize df = []) ∧
      (compute_run_signature serialize df subject body mode label).length = 12 ∧
      (∀ c ∈ (compute_run_signature serialize df subject body mode label).data,
        c ∈ ("0123456789abcdef".data)) ∧
      (∀ (serialize₂ : List Cells → Except String (List Nat)) (df₂ : List Cells)
          (s₂ b₂ m₂ l₂ : String),
        sampleBytes serialize df = sampleBytes serialize₂ df₂ →
        subject = s₂ → body = b₂ → mode = m₂ → label = l₂ →
        compute_run_signature serialize df subject body mode label =
          compute_run_signature serialize₂ df₂ s₂ b₂ m₂ l₂) := by
  intro serialize df subject body mode label
  refine ⟨rfl, ?_, ?_, ?_, ?_⟩
  · intro e he
    unfold sampleBytes
    rw [he]
  · show (List.asString ((hexChars (sha1 (runKey serialize df subject body mode
      label))).take 12)).length = 12
    have h1 : ∀ cs : List Char, (List.asString cs).length = cs.length := fun cs => rfl
    rw [h1, List.length_take, hexChars_length, sha1_length]
    decide
  · intro c hc
    have hd : (List.asString ((hexChars (sha1 (runKey serialize df subject body mode
        label))).take 12)).data = (hexChars (sha1 (runKey serialize df subject body mode
        label))).take 12 := rfl
    rw [compute_run_signature, hd] at hc
    exact hexChars_mem _ (sha1_bytes_lt _) c (List.take_subset _ _ hc)
  · intro serialize₂ df₂ s₂ b₂ m₂ l₂ hs h1 h2 h3 h4
    unfold compute_run_signature runKey
    rw [hs, h1, h2, h3, h4]

/-- Witness for C8: a failing serializer is replaced by the empty byte
string, and the signature still has length 12. -/
theorem c8_witness :
    sampleBytes (fun _ => Except.error "to_csv failed") ([] : List Cells) = [] ∧
    (compute_run_signature (fun _ => Except.error "to_csv failed") [] "s" "b" "m" "l").length
      = 12 :=
  ⟨(c8_signature_spec (fun _ => Except.error "to_csv failed") [] "s" "b" "m" "l").2.1
      "to_csv failed" rfl,
    (c8_signature_spec (fun _ => Except.error "to_csv failed") [] "s" "b" "m" "l").2.2.1⟩

/-- **C10** (separator-free key concatenation admits collisions): whenever
two (subject, body) pairs have the same concatenated UTF-8 bytes, the
signatures agree for any table, mode and label; in particular the distinct
pairs `("ab", "c")` and `("a", "bc")` receive the same fingerprint, so the
duplicate-run guard treats the two distinct jobs as the same job. -/
theorem c10_signature_collision :
    (∀ (serialize : List Cells → Except String (List Nat)) (df : List Cells)
        (mode label s₁ b₁ s₂ b₂ : String),
      utf8 s₁ ++ utf8 b₁ = utf8 s₂ ++ utf8 b₂ →
      compute_run_signature serialize df s₁ b₁ mode label =
        compute_run_signature serialize df s₂ b₂ mode label) ∧
    compute_run_signature (fun _ => Except.ok []) [] "ab" "c" "🆕 New Email" "L" =
      compute_run_signature (fun _ => Except.ok []) [] "a" "bc" "🆕 New Email" "L" ∧
    ("ab", "c") ≠ ("a", "bc") := by
  have hmain : ∀ (serialize : List Cells → Except String (List Nat)) (df : List Cells)
      (mode label s₁ b₁ s₂ b₂ : String),
      utf8 s₁ ++ utf8 b₁ = utf8 s₂ ++ utf8 b₂ →
      compute_run_signature serialize df s₁ b₁ mode label =
        compute_run_signature serialize df s₂ b₂ mode label := by
    intro serialize df mode label s₁ b₁ s₂ b₂ h
    have hk : runKey serialize df s₁ b₁ mode label = runKey serialize df s₂ b₂ mode label := by
      unfold runKey
      simp only [List.append_assoc]
      rw [← List.append_assoc (utf8 s₁) (utf8 b₁), h, List.append_assoc]
    unfold compute_run_signature
    rw [hk]
  exact ⟨hmain, hmain _ _ _ _ _ _ _ _ (by decide), by decide⟩

/-- Witness for C10 at a further concrete input. -/
theorem c10_witness :
    compute_run_signature (fun _ => Except.ok [1, 2]) [] "xy" "z" "m" "l" =
      compute_run_signature (fun _ => Except.ok [1, 2]) [] "x" "yz" "m" "l" :=
  c10_signature_collision.1 _ _ _ _ _ _ _ _ (by decide)

/-! ### The button handler, case by case -/

theorem runPressed_no_interrupt (cfg : Cfg) (env : Env)
    (serialize : List Cells → Except String (List Nat)) (df : List Cells) (sess : Sess)
    (hdup : sess.completedRun ≠ some (compute_run_signature serialize df cfg.subjectT
      cfg.bodyT (modeLabel cfg.mode) cfg.labelName))
    (hbusy : sess.sending = false)
    (hfat : env.fatalAt = none)
    (hstop : ∀ i ≤ df.length, obsStop env i = false) :
    runPressed cfg env serialize df sess =
      (Outcome.completedOk,
       { sending := false, stopFlag := false,
         completedRun := some (compute_run_signature serialize df cfg.subjectT cfg.bodyT
           (modeLabel cfg.mode) cfg.labelName) },
       runFold cfg env { rows := df.map initRow } (List.range df.length)) := by
  unfold runPressed
  rw [if_neg hdup, hbusy]
  simp only [Bool.false_eq_true, if_false]
  rw [List.length_map,
    loopFrom_no_interrupt cfg env _ _
      (fun i hi => ⟨hstop i (Nat.le_of_lt (List.mem_range.mp hi)), by rw [hfat]; simp⟩)]
  simp [hfat, hstop df.length (Nat.le_refl _)]

theorem runPressed_stopped (cfg : Cfg) (env : Env)
    (serialize : List Cells → Except String (List Nat)) (df : List Cells) (sess : Sess)
    (hdup : sess.completedRun ≠ some (compute_run_signature serialize df cfg.subjectT
      cfg.bodyT (modeLabel cfg.mode) cfg.labelName))
    (hbusy : sess.sending = false)
    (hfat : env.fatalAt = none)
    {k : Nat} (hk : env.stopAt = some k) (hkN : k < df.length) :
    runPressed cfg env serialize df sess =
      (Outcome.stoppedRun,
       { sending := false, stopFlag := false, completedRun := sess.completedRun },
       runFold cfg env { rows := df.map initRow } (List.range k)) := by
  unfold runPressed
  rw [if_neg hdup, hbusy]
  simp only [Bool.false_eq_true, if_false]
  obtain ⟨tail, htail⟩ := range_split k df.length hkN
  rw [List.length_map, htail,
    loopFrom_stopped cfg env _ k tail _
      (fun i hi => ⟨by simp [obsStop, hk, Nat.not_le.mpr (List.mem_range.mp hi)],
        by rw [hfat]; simp⟩)
      (by simp [obsStop, hk])]
  have hN : obsStop env df.length = true := by
    simp [obsStop, hk]
    omega
  simp [hfat, hN]

/-- **C2** (idempotency guard): a press is refused with an informational
outcome, an unchanged session and an untouched empty run state when the
current signature equals the last completed one, and likewise when a run is
in progress; a run that exhausts all rows with no stop signal ends
`completedOk` and records its signature as last completed; a run stopped
mid-way ends `stoppedRun`, leaves the recorded signature unchanged — in
particular it records nothing equal to the current signature and clears the
running flag, so an immediate resubmission of the same job is not refused. -/
theorem c2_idempotency_guard :
    ∀ (cfg : Cfg) (env : Env) (serialize : List Cells → Except String (List Nat))
      (df : List Cells) (sess : Sess) (sig : String),
      sig = compute_run_signature serialize df cfg.subjectT cfg.bodyT
        (modeLabel cfg.mode) cfg.labelName →
      ((sess.completedRun = some sig →
        runPressed cfg env serialize df sess = (Outcome.refusedDup, sess, { rows := df })) ∧
       (sess.completedRun ≠ some sig → sess.sending = true →
        runPressed cfg env serialize df sess = (Outcome.refusedBusy, sess, { rows := df })) ∧
       (sess.completedRun ≠ some sig → sess.sending = false → env.fatalAt = none →
        (∀ i ≤ df.length, obsStop env i = false) →
        (runPressed cfg env serialize df sess).1 = Outcome.completedOk ∧
        (runPressed cfg env serialize df sess).2.1.completedRun = some sig) ∧
       (∀ k, sess.completedRun ≠ some sig → sess.sending = false → env.fatalAt = none →
        env.stopAt = some k → k < df.length →
        (runPressed cfg env serialize df sess).1 = Outcome.stoppedRun ∧
        (runPressed cfg env serialize df sess).2.1.completedRun = sess.completedRun ∧
        (runPressed cfg env serialize df sess).2.1.completedRun ≠ some sig ∧
        (runPressed cfg env serialize df sess).2.1.sending = false)) := by
  intro cfg env serialize df sess sig hsig
  subst hsig
  refine ⟨?_, ?_, ?_, ?_⟩
  · intro h
    unfold runPressed
    rw [if_pos h]
  · intro hdup hb
    unfold runPressed
    rw [if_neg hdup, hb]
    simp
  · intro hdup hb hfat hstop
    rw [runPressed_no_interrupt cfg env serialize df sess hdup hb hfat hstop]
    exact ⟨rfl, rfl⟩
  · intro k hdup hb hfat hk hkN
    rw [runPressed_stopped cfg env serialize df sess hdup hb hfat hk hkN]
    exact ⟨rfl, rfl, hdup, rfl⟩

/-- Witness for C2: a completed job is refused on identical resubmission. -/
theorem c2_witness :
    runPressed cfgNew (mkEnv none none) serOk dfTwo
      { sending := false, stopFlag := false,
        completedRun := some (compute_run_signature serOk dfTwo cfgNew.subjectT
          cfgNew.bodyT (modeLabel cfgNew.mode) cfgNew.labelName) } =
      (Outcome.refusedDup,
       { sending := false, stopFlag := false,
         completedRun := some (compute_run_signature serOk dfTwo cfgNew.subjectT
           cfgNew.bodyT (modeLabel cfgNew.mode) cfgNew.labelName) },
       { rows := dfTwo }) :=
  (c2_idempotency_guard cfgNew (mkEnv none none) serOk dfTwo _ _ rfl).1 rfl

/-- **C7** (unconditional cleanup): whenever a press is not refused — so
the send loop actually runs — the session the handler leaves behind has the
run-active flag and the stop flag cleared, for every environment, i.e. on
every way the loop can end: all rows processed, stop signal observed, or an
error escaping the per-row scope (including one in the summary phase). -/
theorem c7_cleanup_always_runs :
    ∀ (cfg : Cfg) (env : Env) (serialize : List Cells → Except String (List Nat))
      (df : List Cells) (sess : Sess),
      sess.completedRun ≠ some (compute_run_signature serialize df cfg.subjectT
        cfg.bodyT (modeLabel cfg.mode) cfg.labelName) →
      sess.sending = false →
      (runPressed cfg env serialize df sess).2.1.sending = false ∧
      (runPressed cfg env serialize df sess).2.1.stopFlag = false := by
  intro cfg env serialize df sess hdup hb
  unfold runPressed
  rw [if_neg hdup, hb]
  simp only [Bool.false_eq_true, if_false]
  rcases h : loopFrom cfg env (List.range (df.map initRow).length) { rows := df.map initRow }
    with ⟨st, ek⟩
  split_ifs <;> simp

/-- Witness for C7 in a fatal-error environment: the flags are cleared even
when an error escapes the per-row scope. -/
theorem c7_witness :
    (runPressed cfgNew (mkEnv none (some 1)) serOk dfTwo { }).2.1.sending = false ∧
    (runPressed cfgNew (mkEnv none (some 1)) serOk dfTwo { }).2.1.stopFlag = false :=
  c7_cleanup_always_runs cfgNew (mkEnv none (some 1)) serOk dfTwo { } (by simp) rfl

/-- **C1**, amended (payload shape by mode): in Follow-up mode the payload
carries reply-threading headers (`In-Reply-To` and `References` set to the
stripped prior message identifier) and is bound to the stripped thread
identifier if and only if both identifier columns are present, the thread
identifier is non-empty and not the placeholder `"nan"`, and the prior
message identifier is non-empty — the placeholder check applies only to the
thread identifier, not to the prior message identifier; otherwise the
payload falls back to the New-Email shape carrying only the rendered
content.  New-Email mode always produces the plain shape, Draft mode
produces a payload of exactly the same shape as New-Email mode, and the
loop submits it to the draft-creation operation instead of the send
operation. -/
theorem c1_payload_modes :
    (∀ (row : Cells) (toAddr subject bodyHtml : String),
      buildMsgBody Mode.followUp row toAddr subject bodyHtml =
        (if hasCol row "ThreadId" = true ∧ hasCol row "RfcMessageId" = true ∧
            pyStrip ((getCol row "ThreadId").getD "") ≠ "" ∧
            pyLower (pyStrip ((getCol row "ThreadId").getD "")) ≠ "nan" ∧
            pyStrip ((getCol row "RfcMessageId").getD "") ≠ "" then
          { raw := { toHeader := toAddr, subject := subject, bodyHtml := bodyHtml,
                     inReplyTo := some (pyStrip ((getCol row "RfcMessageId").getD "")),
                     references := some (pyStrip ((getCol row "RfcMessageId").getD "")) },
            threadId := some (pyStrip ((getCol row "ThreadId").getD "")) }
        else { raw := { toHeader := toAddr, subject := subject, bodyHtml := bodyHtml } })) ∧
    (∀ (row : Cells) (toAddr subject bodyHtml : String),
      buildMsgBody Mode.newEmail row toAddr subject bodyHtml =
        { raw := { toHeader := toAddr, subject := subject, bodyHtml := bodyHtml } } ∧
      buildMsgBody Mode.draft row toAddr subject bodyHtml =
        buildMsgBody Mode.newEmail row toAddr subject bodyHtml) ∧
    (∀ (cfg : Cfg) (env : Env) (i : Nat),
      (cfg.mode = Mode.draft → callResult cfg env i = env.draftRes i) ∧
      (cfg.mode ≠ Mode.draft → callResult cfg env i = env.sendRes i)) := by
  refine ⟨?_, ?_, ?_⟩
  · intro row toAddr subject bodyHtml
    unfold buildMsgBody
    by_cases h1 : hasCol row "ThreadId" = true
    · by_cases h2 : hasCol row "RfcMessageId" = true
      · by_cases h3 : pyStrip ((getCol row "ThreadId").getD "") ≠ "" ∧
            pyLower (pyStrip ((getCol row "ThreadId").getD "")) ≠ "nan" ∧
            pyStrip ((getCol row "RfcMessageId").getD "") ≠ "" <;>
          simp [h1, h2, h3]
      · simp [h1, h2]
    · simp [h1]
  · intro row toAddr subject bodyHtml
    constructor <;> unfold buildMsgBody <;> simp
  · intro cfg env i
    constructor
    · intro h
      unfold callResult
      rw [if_pos h]
    · intro h
      unfold callResult
      rw [if_neg h]

/-- Counterexample to C1 as stated: a Follow-up row whose `RfcMessageId`
cell holds the placeholder `"nan"` (what an empty spreadsheet cell becomes)
is still bound to its thread — with `In-Reply-To: nan` — although the
claim's condition "both non-empty and non-placeholder" is false. -/
theorem c1_counterexample :
    (buildMsgBody Mode.followUp [("Email", "a@x.com"), ("ThreadId", "t1"),
        ("RfcMessageId", "nan")] "a@x.com" "S" "B").threadId = some "t1" ∧
    (buildMsgBody Mode.followUp [("Email", "a@x.com"), ("ThreadId", "t1"),
        ("RfcMessageId", "nan")] "a@x.com" "S" "B").raw.inReplyTo = some "nan" ∧
    ¬ (specNonPlaceholder "t1" ∧ specNonPlaceholder "nan") := by
  refine ⟨by decide, by decide, ?_⟩
  intro h
  exact h.2.2 (by decide)

/-- Witness for C1: a fully identified Follow-up row is threaded, and in
Draft mode the loop consumes the draft-creation oracle. -/
theorem c1_witness :
    buildMsgBody Mode.followUp [("ThreadId", "t1"), ("RfcMessageId", "m1")] "a@b.c" "S" "B" =
      { raw := { toHeader := "a@b.c", subject := "S", bodyHtml := "B",
                 inReplyTo := some "m1", references := some "m1" },
        threadId := some "t1" } ∧
    callResult { cfgFollow with mode := Mode.draft } (mkEnv none none) 0 =
      (mkEnv none none).draftRes 0 := by
  constructor
  · rw [c1_payload_modes.1 [("ThreadId", "t1"), ("RfcMessageId", "m1")] "a@b.c" "S" "B"]
    decide
  · exact (c1_payload_modes.2.2 { cfgFollow with mode := Mode.draft } (mkEnv none none) 0).1 rfl

/-- **C5** (sequential order, counts and progress): in a run with no stop
signal and no fatal error, the identifier write-backs happen exactly for the
successfully sent rows, listed in strictly increasing table order; the final
sent count equals the row count minus skipped plus failed; one progress
event is emitted per sent row; and every progress event carries the total,
the fraction `sent / total`, and an estimated remaining time
`(total - sent) * (elapsed / sent)` read at some processed row. -/
theorem c5_sequential_progress :
    ∀ (cfg : Cfg) (env : Env) (serialize : List Cells → Except String (List Nat))
      (df : List Cells) (sess : Sess) (st : St),
      sess.completedRun ≠ some (compute_run_signature serialize df cfg.subjectT
        cfg.bodyT (modeLabel cfg.mode) cfg.labelName) →
      sess.sending = false →
      env.fatalAt = none → env.stopAt = none →
      st = (runPressed cfg env serialize df sess).2.2 →
      writeBackIdxs st.trace =
        (List.range df.length).filter
          (fun i => rowSent cfg env i (initRow (df.getD i []))) ∧
      (writeBackIdxs st.trace).Sorted (· < ·) ∧
      st.sent = df.length - (st.skipped.length + st.errors.length) ∧
      (progressEvs st.trace).length = st.sent ∧
      (∀ (s tot : Nat) (f e : ℚ), Ev.progress s tot f e ∈ st.trace →
        tot = df.length ∧ f = progressFrac s df.length ∧ 0 < s ∧
        ∃ i < df.length, e = progressEta env i s df.length) := by
  intro cfg env serialize df sess st hdup hbusy hfat hstopn hst
  have hstop : ∀ i ≤ df.length, obsStop env i = false := by
    intro i _
    simp [obsStop, hstopn]
  rw [runPressed_no_interrupt cfg env serialize df sess hdup hbusy hfat hstop] at hst
  set st0 : St := { rows := df.map initRow } with hst0
  have hnd : (List.range df.length).Nodup := List.nodup_range df.length
  have hlen0 : st0.rows.length = df.length := List.length_map _ _
  have hrowOf : ∀ i ∈ List.range df.length,
      st0.rows.getD i [] = initRow (df.getD i []) := by
    intro i hi
    exact getD_map_initRow df (List.mem_range.mp hi)
  have htrace : st.trace = specTrace cfg env (fun i => st0.rows.getD i [])
      st0.rows.length (List.range df.length) 0 := by
    rw [hst]
    have := runFold_trace cfg env (List.range df.length) st0 hnd
    simpa using this
  have hwb : writeBackIdxs st.trace =
      (List.range df.length).filter (fun i => rowSent cfg env i (initRow (df.getD i []))) := by
    rw [htrace, writeBackIdxs_specTrace]
    exact List.filter_congr (fun i hi => by rw [hrowOf i hi])
  refine ⟨hwb, ?_, ?_, ?_, ?_⟩
  · rw [hwb]
    exact (List.pairwise_lt_range df.length).sublist (List.filter_sublist _)
  · have hsent : st.sent = ((List.range df.length).filter
        (fun i => rowSent cfg env i (st0.rows.getD i []))).length := by
      rw [hst]
      have := runFold_sent cfg env (List.range df.length) st0 hnd
      simpa using this
    have hskip : st.skipped = (List.range df.length).filterMap
        (fun i => skipEntry (st0.rows.getD i [])) := by
      rw [hst]
      have := runFold_skipped cfg env (List.range df.length) st0 hnd
      simpa using this
    have herr : st.errors = (List.range df.length).filterMap
        (fun i => errEntry cfg env i (st0.rows.getD i [])) := by
      rw [hst]
      have := runFold_errors cfg env (List.range df.length) st0 hnd
      simpa using this
    have hsum := counts_sum cfg env (fun i => st0.rows.getD i []) (List.range df.length)
    rw [List.length_range] at hsum
    rw [hsent, hskip, herr]
    omega
  · have hsent : st.sent = ((List.range df.length).filter
        (fun i => rowSent cfg env i (st0.rows.getD i []))).length := by
      rw [hst]
      have := runFold_sent cfg env (List.range df.length) st0 hnd
      simpa using this
    rw [htrace, progressEvs_specTrace_length, hsent]
  · intro s tot f e he
    rw [htrace] at he
    obtain ⟨htot, hpos, hf, i, hi, heta⟩ := progress_mem_specTrace cfg env _ _ _ _ he
    rw [hlen0] at htot
    refine ⟨htot, ?_, hpos, i, List.mem_range.mp hi, ?_⟩
    · rw [hf, hlen0]
    · rw [heta, hlen0]

/-- Witness for C5: two valid rows, both sent; the count identity and the
write-back order hold concretely. -/
theorem c5_witness :
    (runPressed cfgNew (mkEnv none none) serOk dfTwo { }).2.2.sent =
      dfTwo.length -
        ((runPressed cfgNew (mkEnv none none) serOk dfTwo { }).2.2.skipped.length +
         (runPressed cfgNew (mkEnv none none) serOk dfTwo { }).2.2.errors.length) :=
  (c5_sequential_progress cfgNew (mkEnv none none) serOk dfTwo { } _
    (by simp) rfl rfl rfl rfl).2.2.1

/-- **C4** (per-row error isolation): in a run with no stop signal and no
fatal error, a row with no extractable address contributes its raw `Email`
cell to the skip list and never receives a provider call; a row whose
subject or body rendering fails with the missing-field error, or whose
provider call raises, contributes the pair (extracted address, error) to
the failure list; in all cases the run completes (every other row is still
handled, the outcome is `completedOk`) and the sent counter counts exactly
the successful rows, so none of these rows increments it. -/
theorem c4_per_row_errors :
    ∀ (cfg : Cfg) (env : Env) (serialize : List Cells → Except String (List Nat))
      (df : List Cells) (sess : Sess) (st : St),
      sess.completedRun ≠ some (compute_run_signature serialize df cfg.subjectT
        cfg.bodyT (modeLabel cfg.mode) cfg.labelName) →
      sess.sending = false →
      env.fatalAt = none → env.stopAt = none →
      st = (runPressed cfg env serialize df sess).2.2 →
      (∀ i < df.length, rowAddr (initRow (df.getD i [])) = none →
        ((getCol (initRow (df.getD i [])) "Email").getD "") ∈ st.skipped ∧
        i ∉ providerCallIdxs st.trace) ∧
      (∀ i < df.length, ∀ addr, rowAddr (initRow (df.getD i [])) = some addr →
        (∀ e, pyFormat cfg.subjectT.data (initRow (df.getD i [])) = Except.error e →
          (addr, e) ∈ st.errors) ∧
        (∀ e, renderOk (pyFormat cfg.subjectT.data (initRow (df.getD i []))) = true →
          pyFormat cfg.bodyT.data (initRow (df.getD i [])) = Except.error e →
          (addr, e) ∈ st.errors) ∧
        (∀ e, rowDispatched cfg (initRow (df.getD i [])) = true →
          callResult cfg env i = Except.error e → (addr, e) ∈ st.errors)) ∧
      (runPressed cfg env serialize df sess).1 = Outcome.completedOk ∧
      st.sent = ((List.range df.length).filter
        (fun i => rowSent cfg env i (initRow (df.getD i [])))).length := by
  intro cfg env serialize df sess st hdup hbusy hfat hstopn hst
  have hstop : ∀ i ≤ df.length, obsStop env i = false := by
    intro i _
    simp [obsStop, hstopn]
  have hrun := runPressed_no_interrupt cfg env serialize df sess hdup hbusy hfat hstop
  rw [hrun] at hst
  set st0 : St := { rows := df.map initRow } with hst0
  have hnd : (List.range df.length).Nodup := List.nodup_range df.length
  have hskipeq : st.skipped = (List.range df.length).filterMap
      (fun i => skipEntry (st0.rows.getD i [])) := by
    rw [hst]
    have := runFold_skipped cfg env (List.range df.length) st0 hnd
    simpa using this
  have herreq : st.errors = (List.range df.length).filterMap
      (fun i => errEntry cfg env i (st0.rows.getD i [])) := by
    rw [hst]
    have := runFold_errors cfg env (List.range df.length) st0 hnd
    simpa using this
  have hcalls : providerCallIdxs st.trace = (List.range df.length).filter
      (fun i => rowDispatched cfg (st0.rows.getD i [])) := by
    rw [hst]
    have htr := runFold_trace cfg env (List.range df.length) st0 hnd
    have : (runFold cfg env st0 (List.range df.length)).trace =
        specTrace cfg env (fun i => st0.rows.getD i []) st0.rows.length
          (List.range df.length) 0 := by
      simpa using htr
    rw [this, providerCallIdxs_specTrace]
  have hrow : ∀ i < df.length, st0.rows.getD i [] = initRow (df.getD i []) :=
    fun i hi => getD_map_initRow df hi
  refine ⟨?_, ?_, ?_, ?_⟩
  · intro i hi hnone
    constructor
    · rw [hskipeq]
      refine List.mem_filterMap.mpr ⟨i, List.mem_range.mpr hi, ?_⟩
      rw [hrow i hi]
      unfold skipEntry
      rw [hnone]
    · intro hcal
      rw [hcalls] at hcal
      have := List.of_mem_filter hcal
      rw [hrow i hi] at this
      unfold rowDispatched at this
      rw [hnone] at this
      simp at this
  · intro i hi addr haddr
    have hmem : ∀ e, errEntry cfg env i (initRow (df.getD i [])) = some (addr, e) →
        (addr, e) ∈ st.errors := by
      intro e he
      rw [herreq]
      refine List.mem_filterMap.mpr ⟨i, List.mem_range.mpr hi, ?_⟩
      rw [hrow i hi]
      exact he
    refine ⟨?_, ?_, ?_⟩
    · intro e he
      refine hmem e ?_
      unfold errEntry
      rw [haddr, he]
    · intro e hsubj hbody
      rcases hs : pyFormat cfg.subjectT.data (initRow (df.getD i [])) with e' | sc
      · rw [hs] at hsubj
        simp [renderOk] at hsubj
      · refine hmem e ?_
        unfold errEntry
        rw [haddr, hs, hbody]
    · intro e hdisp hcall
      unfold rowDispatched at hdisp
      rw [haddr] at hdisp
      simp only [Option.isSome_some, Bool.true_and, Bool.and_eq_true] at hdisp
      rcases hs : pyFormat cfg.subjectT.data (initRow (df.getD i [])) with e' | sc
      · rw [hs] at hdisp
        simp [renderOk] at hdisp
      · rcases hb : pyFormat cfg.bodyT.data (initRow (df.getD i [])) with e' | bc
        · rw [hb] at hdisp
          simp [renderOk] at hdisp
        · refine hmem e ?_
          unfold errEntry
          rw [haddr, hs, hb, hcall]
  · rw [hrun]
  · have hsent : st.sent = ((List.range df.length).filter
        (fun i => rowSent cfg env i (st0.rows.getD i []))).length := by
      rw [hst]
      have := runFold_sent cfg env (List.range df.length) st0 hnd
      simpa using this
    rw [hsent]
    congr 1
    exact List.filter_congr (fun i hi => by rw [hrow i (List.mem_range.mp hi)])

/-- Witness for C4: a table whose first row has no valid address; its raw
cell lands in the skip list, it gets no provider call, and the run still
completes. -/
theorem c4_witness :
    ("bad" ∈ (runPressed cfgNew (mkEnv none none) serOk dfSkipFirst { }).2.2.skipped ∧
      0 ∉ providerCallIdxs (runPressed cfgNew (mkEnv none none) serOk dfSkipFirst { }).2.2.trace) ∧
    (runPressed cfgNew (mkEnv none none) serOk dfSkipFirst { }).1 = Outcome.completedOk :=
  ⟨by
    have h := (c4_per_row_errors cfgNew (mkEnv none none) serOk dfSkipFirst { } _
      (by simp) rfl rfl rfl rfl).1 0 (by decide) (by decide)
    simpa using h,
   (c4_per_row_errors cfgNew (mkEnv none none) serOk dfSkipFirst { } _
      (by simp) rfl rfl rfl rfl).2.2.1⟩

/-- **C3**, amended (stop signal): if the stop flag first reads true at the
top of iteration `k+1` (0-based index `k`) of a run over `N` rows with no
fatal error, then provider calls were issued exactly for those of the first
`k` rows that passed address validation and template rendering (in
particular at most `k` calls, and none at or after index `k`); rows
`k+1 .. N` are left exactly as the column-initialisation pass left them,
with no write-back and no provider call; the run ends in the Stopped state;
and its fingerprint is not recorded as completed. -/
theorem c3_stop_signal :
    ∀ (cfg : Cfg) (env : Env) (serialize : List Cells → Except String (List Nat))
      (df : List Cells) (sess : Sess) (st : St) (k : Nat),
      sess.completedRun ≠ some (compute_run_signature serialize df cfg.subjectT
        cfg.bodyT (modeLabel cfg.mode) cfg.labelName) →
      sess.sending = false →
      env.fatalAt = none →
      env.stopAt = some k → k < df.length →
      st = (runPressed cfg env serialize df sess).2.2 →
      providerCallIdxs st.trace =
        (List.range k).filter (fun i => rowDispatched cfg (initRow (df.getD i []))) ∧
      (∀ i ∈ providerCallIdxs st.trace, i < k) ∧
      (∀ i, k ≤ i → i < df.length →
        st.rows[i]? = some (initRow (df.getD i [])) ∧
        i ∉ writeBackIdxs st.trace ∧ i ∉ providerCallIdxs st.trace) ∧
      (runPressed cfg env serialize df sess).1 = Outcome.stoppedRun ∧
      (runPressed cfg env serialize df sess).2.1.completedRun = sess.completedRun := by
  intro cfg env serialize df sess st k hdup hbusy hfat hk hkN hst
  have hrun := runPressed_stopped cfg env serialize df sess hdup hbusy hfat hk hkN
  rw [hrun] at hst
  set st0 : St := { rows := df.map initRow } with hst0
  have hnd : (List.range k).Nodup := List.nodup_range k
  have hrow : ∀ i < df.length, st0.rows.getD i [] = initRow (df.getD i []) :=
    fun i hi => getD_map_initRow df hi
  have htrace : st.trace = specTrace cfg env (fun i => st0.rows.getD i [])
      st0.rows.length (List.range k) 0 := by
    rw [hst]
    have := runFold_trace cfg env (List.range k) st0 hnd
    simpa using this
  have hcalls : providerCallIdxs st.trace =
      (List.range k).filter (fun i => rowDispatched cfg (initRow (df.getD i []))) := by
    rw [htrace, providerCallIdxs_specTrace]
    exact List.filter_congr
      (fun i hi => by rw [hrow i (Nat.lt_trans (List.mem_range.mp hi) hkN)])
  have hwbs : writeBackIdxs st.trace =
      (List.range k).filter (fun i => rowSent cfg env i (initRow (df.getD i []))) := by
    rw [htrace, writeBackIdxs_specTrace]
    exact List.filter_congr
      (fun i hi => by rw [hrow i (Nat.lt_trans (List.mem_range.mp hi) hkN)])
  refine ⟨hcalls, ?_, ?_, ?_, ?_⟩
  · intro i hi
    rw [hcalls] at hi
    exact List.mem_range.mp (List.mem_filter.mp hi).1
  · intro i hki hiN
    refine ⟨?_, ?_, ?_⟩
    · have hnotm : i ∉ List.range k := by
        intro hc
        exact absurd (List.mem_range.mp hc) (Nat.not_lt.mpr hki)
      have h1 : st.rows[i]? = st0.rows[i]? := by
        rw [hst]
        exact runFold_rows_notMem cfg env (List.range k) st0 hnotm
      rw [h1]
      show (df.map initRow)[i]? = some (initRow (df.getD i []))
      rw [List.getElem?_map, List.getElem?_eq_getElem hiN]
      simp [List.getD_eq_getElem?_getD, List.getElem?_eq_getElem hiN]
    · intro hc
      rw [hwbs] at hc
      exact absurd (List.mem_range.mp (List.mem_filter.mp hc).1) (Nat.not_lt.mpr hki)
    · intro hc
      rw [hcalls] at hc
      exact absurd (List.mem_range.mp (List.mem_filter.mp hc).1) (Nat.not_lt.mpr hki)
  · rw [hrun]
  · rw [hrun]

/-- Counterexample to C3 as stated: over two rows whose first has no valid
address, with the stop flag first observed at the top of iteration 2
(`k = 1`), the claim demands exactly one provider call, but the code issued
none — the skipped row never reached the provider. -/
theorem c3_counterexample :
    (mkEnv (some 1) none).stopAt = some 1 ∧
    dfSkipFirst.length = 2 ∧
    (runPressed cfgNew (mkEnv (some 1) none) serOk dfSkipFirst { }).1 =
      Outcome.stoppedRun ∧
    providerCallIdxs
      (runPressed cfgNew (mkEnv (some 1) none) serOk dfSkipFirst { }).2.2.trace = [] ∧
    ¬ (providerCallIdxs
      (runPressed cfgNew (mkEnv (some 1) none) serOk dfSkipFirst { }).2.2.trace).length = 1 := by
  refine ⟨rfl, rfl, ?_, ?_, ?_⟩
  · have h := (c3_stop_signal cfgNew (mkEnv (some 1) none) serOk dfSkipFirst { } _ 1
      (by simp) rfl rfl rfl (by decide) rfl).2.2.2.1
    exact h
  · have h := (c3_stop_signal cfgNew (mkEnv (some 1) none) serOk dfSkipFirst { } _ 1
      (by simp) rfl rfl rfl (by decide) rfl).1
    rw [h]
    decide
  · have h := (c3_stop_signal cfgNew (mkEnv (some 1) none) serOk dfSkipFirst { } _ 1
      (by simp) rfl rfl rfl (by decide) rfl).1
    rw [h]
    decide

/-- Witness for C3: same scenario; the run ends Stopped, rows at and after
the stop are untouched, and the fingerprint is not recorded. -/
theorem c3_witness :
    (runPressed cfgNew (mkEnv (some 1) none) serOk dfSkipFirst { }).1 =
      Outcome.stoppedRun ∧
    (runPressed cfgNew (mkEnv (some 1) none) serOk dfSkipFirst { }).2.2.rows[1]? =
      some (initRow (dfSkipFirst.getD 1 [])) ∧
    (runPressed cfgNew (mkEnv (some 1) none) serOk dfSkipFirst { }).2.1.completedRun =
      none := by
  have h := c3_stop_signal cfgNew (mkEnv (some 1) none) serOk dfSkipFirst { } _ 1
    (by simp) rfl rfl rfl (by decide) rfl
  exact ⟨h.2.2.2.1, (h.2.2.1 1 (by decide) (by decide)).1, h.2.2.2.2⟩

theorem getCol_rowFinalCells_other (cfg : Cfg) (env : Env) (i : Nat) (row : Cells)
    (col : String) (h1 : col ≠ "ThreadId") (h2 : col ≠ "RfcMessageId") :
    getCol (rowFinalCells cfg env i row) col = getCol row col := by
  unfold rowFinalCells
  rcases h : callResult cfg env i with e | pm
  · simp [h]
  · simp only [h]
    split
    · rw [getCol_setCol_ne _ _ _ _ (fun hc => h2 hc.symm),
        getCol_setCol_ne _ _ _ _ (fun hc => h1 hc.symm)]
    · rfl

/-- **C9**, amended (write-back frame): in a run with no stop signal and no
fatal error, a row whose provider call returned has its `ThreadId` and
`RfcMessageId` cells overwritten with the provider-returned thread
identifier and the enrichment-fetched message identifier, each replaced by
the empty string when unavailable; every other row — skipped, failed at
rendering, or whose provider call raised — keeps exactly the cells the
column-initialisation pass gave it; and no column other than `ThreadId` and
`RfcMessageId` is ever modified, the initialisation pass itself only adding
those two columns when absent. -/
theorem c9_writeback_frame :
    ∀ (cfg : Cfg) (env : Env) (serialize : List Cells → Except String (List Nat))
      (df : List Cells) (sess : Sess) (st : St),
      sess.completedRun ≠ some (compute_run_signature serialize df cfg.subjectT
        cfg.bodyT (modeLabel cfg.mode) cfg.labelName) →
      sess.sending = false →
      env.fatalAt = none → env.stopAt = none →
      st = (runPressed cfg env serialize df sess).2.2 →
      ∀ i < df.length,
        (∀ pm, rowDispatched cfg (initRow (df.getD i [])) = true →
          callResult cfg env i = Except.ok pm →
          st.rows[i]? = some (setCol (setCol (initRow (df.getD i []))
            "ThreadId" (pm.threadId.getD ""))
            "RfcMessageId" ((env.msgIdHeader i).getD ""))) ∧
        (rowSent cfg env i (initRow (df.getD i [])) = false →
          st.rows[i]? = some (initRow (df.getD i []))) ∧
        (∀ col, col ≠ "ThreadId" → col ≠ "RfcMessageId" →
          getCol (st.rows.getD i []) col = getCol (df.getD i []) col) := by
  intro cfg env serialize df sess st hdup hbusy hfat hstopn hst
  have hstop : ∀ i ≤ df.length, obsStop env i = false := by
    intro i _
    simp [obsStop, hstopn]
  rw [runPressed_no_interrupt cfg env serialize df sess hdup hbusy hfat hstop] at hst
  set st0 : St := { rows := df.map initRow } with hst0
  have hnd : (List.range df.length).Nodup := List.nodup_range df.length
  intro i hi
  have hmem : i ∈ List.range df.length := List.mem_range.mpr hi
  have h0i : st0.rows[i]? = some (initRow (df.getD i [])) := by
    show (df.map initRow)[i]? = some (initRow (df.getD i []))
    rw [List.getElem?_map, List.getElem?_eq_getElem hi]
    simp [List.getD_eq_getElem?_getD, List.getElem?_eq_getElem hi]
  have hfin : st.rows[i]? = some (rowFinalCells cfg env i (initRow (df.getD i []))) := by
    rw [hst]
    rw [runFold_rows_mem cfg env (List.range df.length) st0 hnd hmem]
    rw [h0i]
    rfl
  refine ⟨?_, ?_, ?_⟩
  · intro pm hdisp hok
    rw [hfin]
    unfold rowFinalCells
    simp only [hok]
    rw [if_pos hdisp]
  · intro hns
    rw [hfin, rowFinalCells_not_sent hns]
  · intro col h1 h2
    have hgd : st.rows.getD i [] = rowFinalCells cfg env i (initRow (df.getD i [])) := by
      rw [List.getD_eq_getElem?_getD, hfin]
      rfl
    rw [hgd, getCol_rowFinalCells_other cfg env i _ col h1 h2,
      getCol_initRow_other _ col h1 h2]

/-- Counterexample to C9 as stated: a Follow-up row whose provider call
raises.  An attempt was made (the provider call event is in the trace) and
no provider values are available, yet the identifier columns are neither
overwritten nor cleared to empty — the old `ThreadId` value survives. -/
theorem c9_counterexample :
    providerCallIdxs
      (runPressed cfgFollow mkEnvSendFails serOk dfThreaded { }).2.2.trace = [0] ∧
    getCol ((runPressed cfgFollow mkEnvSendFails serOk dfThreaded { }).2.2.rows.getD 0 [])
      "ThreadId" = some "t1" ∧
    some "t1" ≠ (some "" : Option String) := by
  refine ⟨by decide, ?_, by decide⟩
  have h := ((c9_writeback_frame cfgFollow mkEnvSendFails serOk dfThreaded { } _
    (by simp) rfl rfl rfl rfl) 0 (by decide)).2.1 (by decide)
  have hgd : (runPressed cfgFollow mkEnvSendFails serOk dfThreaded { }).2.2.rows.getD 0 [] =
      initRow (dfThreaded.getD 0 []) := by
    rw [List.getD_eq_getElem?_getD, h]
    rfl
  rw [hgd]
  decide

/-- Witness for C9: a successful New-Email row has both identifier cells
overwritten with the provider thread id and the fetched Message-ID. -/
theorem c9_witness :
    (runPressed cfgNew (mkEnv none none) serOk dfTwo { }).2.2.rows[0]? =
      some (setCol (setCol (initRow (dfTwo.getD 0 [])) "ThreadId" "tid")
        "RfcMessageId" "<mid@mail.example.com>") :=
  ((c9_writeback_frame cfgNew (mkEnv none none) serOk dfTwo { } _
    (by simp) rfl rfl rfl rfl) 0 (by decide)).1
    { id := some "sid", threadId := some "tid" } (by decide) rfl

end MailLink
